import Mathlib

/-!
# Verification of the Hanma SEO build pipeline

A shallow embedding, in Lean 4, of the static page-generation pipeline of the
Hanma repository (`apps/web/scripts/seo-build`): the slug deriver, the SEO
metadata synthesizer, the keyword matcher / tag extractor, the content loader
and the nine page generators together with the sitemap derivation of the
build orchestrator.  Strings are modelled by Lean `String` (a list of
characters); the JavaScript string operations used by the code
(`toLowerCase`, `includes`, `split(/\s+/)`, `join(" ")`, template literals)
are defined below character-by-character on the ASCII range, which covers all
text the pipeline manipulates.
-/

namespace Hanma

/-! ## JavaScript string primitives -/

/-- JS `String.prototype.toLowerCase` on one character (ASCII range: the
code points 65–90 map to 97–122, everything else is unchanged). -/
def jsLowerC (c : Char) : Char :=
  if 'A' ≤ c && c ≤ 'Z' then Char.ofNat (c.toNat + 32) else c

/-- JS `String.prototype.toLowerCase`. -/
def sLower (s : String) : String := ⟨s.data.map jsLowerC⟩

/-- `leadMatch n l` holds when the needle `n` occurs at the very start of `l`. -/
def leadMatch : List Char → List Char → Bool
  | [], _ => true
  | _ :: _, [] => false
  | a :: as, b :: bs => a == b && leadMatch as bs

/-- `hasSub n l` holds when the needle `n` occurs contiguously somewhere in
`l`; models JS `String.prototype.includes` (the empty needle matches). -/
def hasSub (n : List Char) : List Char → Bool
  | [] => n.isEmpty
  | c :: cs => leadMatch n (c :: cs) || hasSub n cs

/-- JS `hay.includes(needle)`. -/
def jsIncludes (hay needle : String) : Bool := hasSub needle.data hay.data

/-- JS `Array.prototype.join(" ")`. -/
def joinSp : List String → String
  | [] => ""
  | [s] => s
  | s :: rest => s ++ " " ++ joinSp rest

/-- ASCII whitespace, as matched by the `\s` character class of the regular
expressions used in the code (whose inputs are ASCII). -/
def isWs (c : Char) : Bool :=
  c == ' ' || c == '\t' || c == '\n' || c == '\r' || c == '\x0b' || c == '\x0c'

mutual
/-- Scanner for JS `split(/\s+/)`: collecting the current token `acc`
(reversed). -/
def splitWsGo : List Char → List Char → List (List Char)
  | [], acc => [acc.reverse]
  | c :: cs, acc =>
    if isWs c then acc.reverse :: splitWsRun cs
    else splitWsGo cs (c :: acc)

/-- Scanner for JS `split(/\s+/)`: inside a run of whitespace (the separator
match is maximal). -/
def splitWsRun : List Char → List (List Char)
  | [] => [[]]
  | c :: cs => if isWs c then splitWsRun cs else splitWsGo cs [c]
end

/-- JS `s.split(/\s+/)`.  Note the JS semantics: the empty string yields
`[""]`, and leading/trailing whitespace contributes empty tokens. -/
def jsSplitWs (s : String) : List String := (splitWsGo s.data []).map String.mk

/-! ## The slug deriver (`slugify`, `utils/seo-metadata.ts`)

lower-case, replace every run of non-alphanumerics with a single hyphen,
strip the leading and trailing hyphen runs, collapse repeated hyphens. -/

/-- Lower-case ASCII letter or digit, i.e. the character class `[a-z0-9]`. -/
def isLowerAlnum (c : Char) : Bool :=
  ('a' ≤ c && c ≤ 'z') || ('0' ≤ c && c ≤ '9')

/-- `replace(/[^a-z0-9]+/g, "-")`: every maximal run of characters outside
`[a-z0-9]` becomes a single `'-'`.  The flag records whether the previous
character belonged to such a run. -/
def dashRuns : List Char → Bool → List Char
  | [], _ => []
  | c :: cs, inRun =>
    if isLowerAlnum c then c :: dashRuns cs false
    else if inRun then dashRuns cs true
    else '-' :: dashRuns cs true

/-- Second replace of `slugify`: drop the leading and the trailing run of
`'-'`. -/
def trimDashes (l : List Char) : List Char :=
  ((l.dropWhile (· == '-')).reverse.dropWhile (· == '-')).reverse

/-- Third replace of `slugify`: collapse each run of `'-'` to a single
`'-'`. -/
def squashDashes : List Char → Bool → List Char
  | [], _ => []
  | c :: cs, prevDash =>
    if c == '-' then
      if prevDash then squashDashes cs true else '-' :: squashDashes cs true
    else c :: squashDashes cs false

/-- `slugify` from `utils/seo-metadata.ts`. -/
def slugify (s : String) : String :=
  ⟨squashDashes (trimDashes (dashRuns (s.data.map jsLowerC) false)) false⟩

/-! ### Facts about the shape of `slugify` output -/

/-- No two adjacent dashes. -/
def noDD : List Char → Bool
  | c :: d :: rest => !(c == '-' && d == '-') && noDD (d :: rest)
  | _ => true

/-- The head (if any) is not a dash. -/
def headND : List Char → Bool
  | [] => true
  | c :: _ => !(c == '-')

theorem noDD_tail {c : Char} {l : List Char} (h : noDD (c :: l) = true) :
    noDD l = true := by
  cases l with
  | nil => rfl
  | cons d rest =>
    simp only [noDD, Bool.and_eq_true] at h
    exact h.2

theorem noDD_headND {l : List Char} (h : noDD ('-' :: l) = true) :
    headND l = true := by
  cases l with
  | nil => rfl
  | cons d rest =>
    simp only [noDD, Bool.and_eq_true] at h
    have := h.1
    simp only [headND]
    cases hd : d == '-' with
    | false => simp
    | true => simp [hd] at this

theorem dashRuns_chars : ∀ (l : List Char) (b : Bool),
    ∀ c ∈ dashRuns l b, isLowerAlnum c = true ∨ c = '-' := by
  intro l
  induction l with
  | nil => intro b c hc; simp [dashRuns] at hc
  | cons a as ih =>
    intro b c hc
    by_cases ha : isLowerAlnum a = true
    · rw [dashRuns, if_pos ha] at hc
      rcases List.mem_cons.mp hc with h | h
      · exact Or.inl (h ▸ ha)
      · exact ih false c h
    · rw [dashRuns, if_neg ha] at hc
      cases b with
      | true => exact ih true c (by simpa using hc)
      | false =>
        simp only [Bool.false_eq_true, if_false] at hc
        rcases List.mem_cons.mp hc with h | h
        · exact Or.inr h
        · exact ih true c h

theorem dashRuns_noDD : ∀ (l : List Char) (b : Bool),
    noDD (dashRuns l b) = true ∧
      (b = true → headND (dashRuns l b) = true) := by
  intro l
  induction l with
  | nil => intro b; exact ⟨rfl, fun _ => rfl⟩
  | cons a as ih =>
    intro b
    by_cases ha : isLowerAlnum a = true
    · rw [dashRuns, if_pos ha]
      have hne : (a == '-') = false := by
        cases h : a == '-' with
        | false => rfl
        | true =>
          exfalso
          have : a = '-' := by simpa using h
          subst this
          simp [isLowerAlnum] at ha
      refine ⟨?_, fun _ => by simp [headND, hne]⟩
      cases hrec : dashRuns as false with
      | nil => rfl
      | cons d rest =>
        have h1 := (ih false).1
        rw [hrec] at h1
        simp only [noDD, Bool.and_eq_true]
        exact ⟨by simp [hne], h1⟩
    · rw [dashRuns, if_neg ha]
      cases b with
      | true => simpa using ih true
      | false =>
        simp only [Bool.false_eq_true, if_false]
        have h1 := (ih true).1
        have h2 := (ih true).2 rfl
        refine ⟨?_, fun h => by cases h⟩
        cases hrec : dashRuns as true with
        | nil => rfl
        | cons d rest =>
          rw [hrec] at h1 h2
          simp only [noDD, Bool.and_eq_true]
          constructor
          · simp only [headND] at h2
            cases hd : d == '-' with
            | false => simp
            | true => rw [hd] at h2; simp at h2
          · exact h1

theorem squashDashes_noDD : ∀ (l : List Char) (b : Bool),
    noDD (squashDashes l b) = true ∧
      (b = true → headND (squashDashes l b) = true) := by
  intro l
  induction l with
  | nil => intro b; exact ⟨rfl, fun _ => rfl⟩
  | cons a as ih =>
    intro b
    by_cases ha : (a == '-') = true
    · rw [squashDashes, if_pos ha]
      cases b with
      | true => simpa using ih true
      | false =>
        simp only [Bool.false_eq_true, if_false]
        have h1 := (ih true).1
        have h2 := (ih true).2 rfl
        refine ⟨?_, fun h => by cases h⟩
        cases hrec : squashDashes as true with
        | nil => rfl
        | cons d rest =>
          rw [hrec] at h1 h2
          simp only [noDD, Bool.and_eq_true]
          constructor
          · simp only [headND] at h2
            cases hd : d == '-' with
            | false => simp
            | true => rw [hd] at h2; simp at h2
          · exact h1
    · rw [squashDashes, if_neg ha]
      refine ⟨?_, fun _ => by simp [headND, Bool.eq_false_iff.mpr, ha]⟩
      cases hrec : squashDashes as false with
      | nil => rfl
      | cons d rest =>
        have h1 := (ih false).1
        rw [hrec] at h1
        simp only [noDD, Bool.and_eq_true]
        exact ⟨by simp [ha], h1⟩

theorem squashDashes_chars : ∀ (l : List Char) (b : Bool),
    ∀ c ∈ squashDashes l b, c ∈ l ∨ c = '-' := by
  intro l
  induction l with
  | nil => intro b c hc; simp [squashDashes] at hc
  | cons a as ih =>
    intro b c hc
    by_cases ha : (a == '-') = true
    · rw [squashDashes, if_pos ha] at hc
      cases b with
      | true =>
        rcases ih true c (by simpa using hc) with h | h
        · exact Or.inl (List.mem_cons_of_mem _ h)
        · exact Or.inr h
      | false =>
        simp only [Bool.false_eq_true, if_false] at hc
        rcases List.mem_cons.mp hc with h | h
        · exact Or.inr h
        · rcases ih true c h with h' | h'
          · exact Or.inl (List.mem_cons_of_mem _ h')
          · exact Or.inr h'
    · rw [squashDashes, if_neg ha] at hc
      rcases List.mem_cons.mp hc with h | h
      · exact Or.inl (h ▸ List.mem_cons_self _ _)
      · rcases ih false c h with h' | h'
        · exact Or.inl (List.mem_cons_of_mem _ h')
        · exact Or.inr h'

theorem squashDashes_headND {l : List Char} (b : Bool)
    (h : headND l = true) : headND (squashDashes l b) = true := by
  cases l with
  | nil => rfl
  | cons a as =>
    simp only [headND, Bool.not_eq_true'] at h
    rw [squashDashes, if_neg (by simp [h])]
    simp [headND, h]

theorem squashDashes_keep : ∀ (l : List Char) (b : Bool),
    l.getLast? ≠ some '-' →
    (squashDashes l b).getLast? ≠ some '-' ∧
      (l ≠ [] → squashDashes l b ≠ []) := by
  intro l
  induction l with
  | nil =>
    intro b _
    exact ⟨by simp [squashDashes], fun h => absurd rfl h⟩
  | cons a as ih =>
    intro b hlast
    cases as with
    | nil =>
      have ha : a ≠ '-' := by
        intro h; exact hlast (by simp [h])
      rw [squashDashes, if_neg (by simp [ha])]
      exact ⟨by simpa [squashDashes] using hlast, fun _ => by simp [squashDashes]⟩
    | cons d ds =>
      have hlast' : (d :: ds).getLast? ≠ some '-' := by
        rwa [List.getLast?_cons_cons] at hlast
      by_cases ha : (a == '-') = true
      · rw [squashDashes, if_pos ha]
        cases b with
        | true => exact ⟨(ih true hlast').1, fun _ => (ih true hlast').2 (by simp)⟩
        | false =>
          simp only [Bool.false_eq_true, if_false]
          have hne := (ih true hlast').2 (by simp)
          obtain ⟨r, rs, hr⟩ := List.exists_cons_of_ne_nil hne
          refine ⟨?_, fun _ => by simp⟩
          rw [hr, List.getLast?_cons_cons, ← hr]
          exact (ih true hlast').1
      · rw [squashDashes, if_neg ha]
        have hne := (ih false hlast').2 (by simp)
        obtain ⟨r, rs, hr⟩ := List.exists_cons_of_ne_nil hne
        refine ⟨?_, fun _ => by simp⟩
        rw [hr, List.getLast?_cons_cons, ← hr]
        exact (ih false hlast').1

/-! ### `trimDashes` facts -/

theorem dropWhileD_suffix : ∀ l : List Char,
    ∃ w, w ++ l.dropWhile (· == '-') = l := by
  intro l
  induction l with
  | nil => exact ⟨[], rfl⟩
  | cons a as ih =>
    by_cases ha : (a == '-') = true
    · obtain ⟨w, hw⟩ := ih
      exact ⟨a :: w, by simp [List.dropWhile_cons, ha, hw]⟩
    · exact ⟨[], by simp [List.dropWhile_cons, ha]⟩

theorem headND_dropWhileD : ∀ l : List Char,
    headND (l.dropWhile (· == '-')) = true := by
  intro l
  induction l with
  | nil => rfl
  | cons a as ih =>
    by_cases ha : (a == '-') = true
    · simpa [List.dropWhile_cons, ha] using ih
    · simp [List.dropWhile_cons, ha, headND]

theorem headND_iff (l : List Char) : headND l = true ↔ l.head? ≠ some '-' := by
  cases l with
  | nil => simp [headND]
  | cons a as =>
    simp only [headND, List.head?_cons, Bool.not_eq_true']
    constructor
    · intro h hcontra
      have : a = '-' := by simpa using hcontra
      simp [this] at h
    · intro h
      simp only [beq_eq_false_iff_ne, ne_eq]
      intro hcontra
      exact h (by simp [hcontra])

theorem headND_append_left {x w : List Char}
    (h : headND (x ++ w) = true) : headND x = true := by
  cases x with
  | nil => rfl
  | cons a as => simpa [headND] using h

theorem trimDashes_headND (l : List Char) : headND (trimDashes l) = true := by
  obtain ⟨w', hw'⟩ := dropWhileD_suffix ((l.dropWhile (· == '-')).reverse)
  have key : trimDashes l ++ w'.reverse = l.dropWhile (· == '-') := by
    have := congrArg List.reverse hw'
    simpa [trimDashes, List.reverse_append] using this
  exact headND_append_left (x := trimDashes l) (w := w'.reverse)
    (by rw [key]; exact headND_dropWhileD l)

theorem trimDashes_getLast? (l : List Char) :
    (trimDashes l).getLast? ≠ some '-' := by
  unfold trimDashes
  rw [List.getLast?_reverse]
  have := headND_dropWhileD ((l.dropWhile (· == '-')).reverse)
  exact (headND_iff _).mp this

theorem trimDashes_chars {l : List Char} :
    ∀ c ∈ trimDashes l, c ∈ l := by
  intro c hc
  unfold trimDashes at hc
  rw [List.mem_reverse] at hc
  have h1 := (List.dropWhile_sublist (l := (l.dropWhile (· == '-')).reverse)
    (p := (· == '-'))).subset hc
  rw [List.mem_reverse] at h1
  exact (List.dropWhile_sublist (l := l) (p := (· == '-'))).subset h1

/-! ### Fixed points: applying each `slugify` stage to already-clean text -/

theorem jsLowerC_fix {c : Char} (h : isLowerAlnum c = true ∨ c = '-') :
    jsLowerC c = c := by
  rcases h with h | h
  · have hn : ¬(('A' ≤ c && c ≤ 'Z') = true) := by
      simp only [Bool.and_eq_true, decide_eq_true_eq]
      rintro ⟨hA, hZ⟩
      simp only [isLowerAlnum, Bool.or_eq_true, Bool.and_eq_true,
        decide_eq_true_eq] at h
      rcases h with ⟨h1, _⟩ | ⟨_, h2⟩
      · exact absurd (le_trans h1 hZ) (by decide)
      · exact absurd (le_trans hA h2) (by decide)
    rw [jsLowerC, if_neg hn]
  · subst h; decide

theorem mapLower_fix {l : List Char}
    (h : ∀ c ∈ l, isLowerAlnum c = true ∨ c = '-') :
    l.map jsLowerC = l := by
  induction l with
  | nil => rfl
  | cons a as ih =>
    simp only [List.map_cons]
    rw [jsLowerC_fix (h a (List.mem_cons_self _ _)),
      ih (fun c hc => h c (List.mem_cons_of_mem _ hc))]

theorem dashRuns_fix : ∀ (l : List Char) (b : Bool),
    (∀ c ∈ l, isLowerAlnum c = true ∨ c = '-') → noDD l = true →
    (b = true → headND l = true) → dashRuns l b = l := by
  intro l
  induction l with
  | nil => intro b _ _ _; rfl
  | cons a as ih =>
    intro b hchars hnodd hhead
    by_cases ha : isLowerAlnum a = true
    · rw [dashRuns, if_pos ha,
        ih false (fun c hc => hchars c (List.mem_cons_of_mem _ hc))
          (noDD_tail hnodd) (fun h => by cases h)]
    · have ha' : a = '-' := by
        rcases hchars a (List.mem_cons_self _ _) with h | h
        · exact absurd h ha
        · exact h
      cases b with
      | true =>
        exfalso
        have := hhead rfl
        simp [headND, ha'] at this
      | false =>
        rw [dashRuns, if_neg ha]
        simp only [Bool.false_eq_true, if_false]
        rw [ih true (fun c hc => hchars c (List.mem_cons_of_mem _ hc))
          (noDD_tail hnodd) (fun _ => noDD_headND (ha' ▸ hnodd)), ha']

theorem trimDashes_fix {l : List Char} (h1 : headND l = true)
    (h2 : l.getLast? ≠ some '-') : trimDashes l = l := by
  have hdrop : l.dropWhile (· == '-') = l := by
    cases l with
    | nil => rfl
    | cons a as =>
      simp only [headND, Bool.not_eq_true'] at h1
      simp [List.dropWhile_cons, h1]
  have hdrop2 : l.reverse.dropWhile (· == '-') = l.reverse := by
    cases hrev : l.reverse with
    | nil => rfl
    | cons a as =>
      have : l.reverse.head? ≠ some '-' := by
        rw [List.head?_reverse]; exact h2
      rw [hrev] at this
      simp only [List.head?_cons, ne_eq, Option.some.injEq] at this
      simp [List.dropWhile_cons, this]
  unfold trimDashes
  rw [hdrop, hdrop2, List.reverse_reverse]

theorem squashDashes_fix : ∀ (l : List Char) (b : Bool),
    noDD l = true → (b = true → headND l = true) →
    squashDashes l b = l := by
  intro l
  induction l with
  | nil => intro b _ _; rfl
  | cons a as ih =>
    intro b hnodd hhead
    by_cases ha : (a == '-') = true
    · have ha' : a = '-' := by simpa using ha
      cases b with
      | true =>
        exfalso
        have := hhead rfl
        simp [headND, ha'] at this
      | false =>
        rw [squashDashes, if_pos ha]
        simp only [Bool.false_eq_true, if_false]
        rw [ih true (noDD_tail hnodd) (fun _ => noDD_headND (ha' ▸ hnodd)), ha']
    · rw [squashDashes, if_neg ha,
        ih false (noDD_tail hnodd) (fun h => by cases h)]

/-- Shape of `slugify` output: characters in `[a-z0-9-]`, no repeated dashes,
no leading dash, no trailing dash. -/
theorem slugify_shape (s : String) :
    (∀ c ∈ (slugify s).data, isLowerAlnum c = true ∨ c = '-') ∧
      noDD (slugify s).data = true ∧
      headND (slugify s).data = true ∧
      (slugify s).data.getLast? ≠ some '-' := by
  have hdata : (slugify s).data =
      squashDashes (trimDashes (dashRuns (s.data.map jsLowerC) false)) false := rfl
  rw [hdata]
  refine ⟨?_, (squashDashes_noDD _ _).1, ?_, ?_⟩
  · intro c hc
    rcases squashDashes_chars _ _ c hc with h | h
    · exact dashRuns_chars _ _ c (trimDashes_chars _ h)
    · exact Or.inr h
  · exact squashDashes_headND _ (trimDashes_headND _)
  · exact (squashDashes_keep _ _ (trimDashes_getLast? _)).1

/-- **C7** — `slugify` is idempotent: `slugify (slugify s) = slugify s` for
every string `s`.  (`utils/seo-metadata.ts`, `slugify`.) -/
theorem slugify_idempotent (s : String) : slugify (slugify s) = slugify s := by
  obtain ⟨hchars, hnodd, hhead, hlast⟩ := slugify_shape s
  show (⟨squashDashes (trimDashes (dashRuns ((slugify s).data.map jsLowerC)
    false)) false⟩ : String) = slugify s
  rw [mapLower_fix hchars,
    dashRuns_fix _ false hchars hnodd (fun h => by cases h),
    trimDashes_fix hhead hlast,
    squashDashes_fix _ false hnodd (fun h => by cases h)]

example : slugify "Express.js-vs-Hono" = "express-js-vs-hono" := by decide

example : slugify "  --Hello,  World!--  " = "hello-world" := by decide

/-! ## Facts about `hasSub` (JS `includes`) -/

theorem hasSub_nil : ∀ l : List Char, hasSub [] l = true := by
  intro l
  cases l with
  | nil => rfl
  | cons c cs => simp [hasSub, leadMatch]

theorem leadMatch_append (n t : List Char) : leadMatch n (n ++ t) = true := by
  induction n with
  | nil => rfl
  | cons a as ih => simp [leadMatch, ih]

theorem leadMatch_iff (n : List Char) : ∀ l, leadMatch n l = true ↔ ∃ t, l = n ++ t := by
  induction n with
  | nil => intro l; simp [leadMatch]
  | cons a as ih =>
    intro l
    cases l with
    | nil =>
      simp only [leadMatch, Bool.false_eq_true, false_iff]
      rintro ⟨t, ht⟩
      simp at ht
    | cons b bs =>
      simp only [leadMatch, Bool.and_eq_true, beq_iff_eq, ih bs, List.cons_append,
        List.cons.injEq]
      constructor
      · rintro ⟨rfl, t, rfl⟩; exact ⟨t, rfl, rfl⟩
      · rintro ⟨t, rfl, rfl⟩; exact ⟨rfl, t, rfl⟩

theorem hasSub_iff (n : List Char) : ∀ l,
    hasSub n l = true ↔ ∃ u v, l = u ++ n ++ v := by
  intro l
  induction l with
  | nil =>
    simp only [hasSub, List.isEmpty_iff]
    constructor
    · rintro rfl; exact ⟨[], [], rfl⟩
    · rintro ⟨u, v, huv⟩
      rcases List.append_eq_nil.mp (List.append_eq_nil.mp huv.symm).1 with ⟨_, h2⟩
      exact h2
  | cons c cs ih =>
    simp only [hasSub, Bool.or_eq_true, leadMatch_iff, ih]
    constructor
    · rintro (⟨t, ht⟩ | ⟨u, v, huv⟩)
      · exact ⟨[], t, by simpa using ht⟩
      · exact ⟨c :: u, v, by simp [huv]⟩
    · rintro ⟨u, v, huv⟩
      cases u with
      | nil =>
        left
        exact ⟨v, by simpa using huv⟩
      | cons x xs =>
        right
        simp only [List.cons_append, List.cons.injEq] at huv
        exact ⟨xs, v, huv.2⟩

theorem hasSub_of_parts {n l u v : List Char} (h : l = u ++ n ++ v) :
    hasSub n l = true := (hasSub_iff n l).mpr ⟨u, v, h⟩

theorem data_append (a b : String) : (a ++ b).data = a.data ++ b.data := by
  cases a; cases b; rfl

theorem sLower_data (s : String) : (sLower s).data = s.data.map jsLowerC := rfl

/-- A member of the joined list occurs contiguously in the join. -/
theorem joinSp_mem_parts {s : String} : ∀ {parts : List String}, s ∈ parts →
    ∃ u v, (joinSp parts).data = u ++ s.data ++ v := by
  intro parts
  induction parts with
  | nil => intro h; simp at h
  | cons p ps ih =>
    intro h
    rcases List.mem_cons.mp h with rfl | h
    · cases ps with
      | nil => exact ⟨[], [], by simp [joinSp]⟩
      | cons q qs =>
        refine ⟨[], (" " ++ joinSp (q :: qs)).data, ?_⟩
        show (s ++ " " ++ joinSp (q :: qs)).data = _
        rw [data_append, data_append]
        simp
    · cases ps with
      | nil => simp at h
      | cons q qs =>
        obtain ⟨u, v, huv⟩ := ih h
        refine ⟨(p ++ " ").data ++ u, v, ?_⟩
        show (p ++ " " ++ joinSp (q :: qs)).data = _
        rw [data_append, data_append, huv]
        simp [List.append_assoc]

/-- If the (lower-cased) needle occurs in one of the parts, it occurs in the
lower-cased join. -/
theorem jsIncludes_joinSp_of_mem {needle s : String} {parts : List String}
    (hmem : s ∈ parts) (h : jsIncludes (sLower s) needle = true) :
    jsIncludes (sLower (joinSp parts)) needle = true := by
  obtain ⟨u, v, huv⟩ := joinSp_mem_parts hmem
  rw [jsIncludes, sLower_data] at h ⊢
  obtain ⟨u2, v2, h2⟩ := (hasSub_iff _ _).mp h
  apply hasSub_of_parts (u := u.map jsLowerC ++ u2) (v := v2 ++ v.map jsLowerC)
  rw [huv]
  simp only [List.map_append, h2]
  simp

/-! ## The free-text search scorer
(`findMatchingSnippets`, search generator) -/

/-- A catalog snippet (`types.ts`). -/
structure Snippet where
  id : String
  name : String
  displayName : String
  description : String
  purpose : String
  features : List String
  usage : String
  output : String
  dependencies : List String
  command : String
deriving DecidableEq, Repr

/-- The concatenated searchable text of a snippet:
`[purpose, description, ...features, name, displayName].join(" ").toLowerCase()`. -/
def searchText (s : Snippet) : String :=
  sLower (joinSp ([s.purpose, s.description] ++ s.features ++ [s.name, s.displayName]))

/-- The score the search generator assigns a snippet for a query: start at 0,
`+10` for the full query as a substring, `+2` per query word found, `+5` when
the bare `name` contains the query. -/
def snippetScore (s : Snippet) (query : String) : Nat :=
  let queryLower := sLower query
  let queryWords := jsSplitWs queryLower
  let text := searchText s
  let score : Nat := 0
  let score := if jsIncludes text queryLower then score + 10 else score
  let score := queryWords.foldl
    (fun sc w => if jsIncludes text w then sc + 2 else sc) score
  let score := if jsIncludes (sLower s.name) queryLower then score + 5 else score
  score

/-- One entry of the search result. -/
structure ScoredSnippet where
  snippet : Snippet
  score : Nat
deriving DecidableEq, Repr

/-- `findMatchingSnippets` from the search generator: score every snippet,
keep the positive scores, sort descending by score (JS `Array.sort` is
stable; `mergeSort` is the stable sort). -/
def findMatchingSnippets (snippets : List Snippet) (query : String) :
    List ScoredSnippet :=
  ((snippets.map (fun s => ⟨s, snippetScore s query⟩ : Snippet → ScoredSnippet)).filter
      (fun m => decide (0 < m.score))).mergeSort
    (fun a b => decide (b.score ≤ a.score))

theorem foldl_plus2 (p : String → Bool) : ∀ (l : List String) (base : Nat),
    l.foldl (fun sc w => if p w then sc + 2 else sc) base =
      base + 2 * l.countP p := by
  intro l
  induction l with
  | nil => intro base; simp
  | cons a as ih =>
    intro base
    by_cases hp : p a = true
    · rw [List.foldl_cons, if_pos hp, ih, List.countP_cons, if_pos hp]
      ring
    · rw [List.foldl_cons, if_neg hp, ih, List.countP_cons, if_neg hp]
      ring

/-- Closed form of `snippetScore`: the score is exactly the sum of the three
bonuses. -/
theorem snippetScore_eq (s : Snippet) (query : String) :
    snippetScore s query =
      (if jsIncludes (searchText s) (sLower query) then 10 else 0) +
        2 * ((jsSplitWs (sLower query)).countP
            (fun w => jsIncludes (searchText s) w)) +
        (if jsIncludes (sLower s.name) (sLower query) then 5 else 0) := by
  unfold snippetScore
  simp only
  rw [foldl_plus2]
  by_cases h1 : jsIncludes (searchText s) (sLower query) = true <;>
    by_cases h2 : jsIncludes (sLower s.name) (sLower query) = true <;>
      simp [h1, h2]

theorem hasSub_trans {m n l : List Char} (h1 : hasSub n l = true)
    (h2 : hasSub m n = true) : hasSub m l = true := by
  obtain ⟨u, v, rfl⟩ := (hasSub_iff n l).mp h1
  obtain ⟨u2, v2, rfl⟩ := (hasSub_iff m _).mp h2
  exact hasSub_of_parts (u := u ++ u2) (v := v2 ++ v) (by simp [List.append_assoc])

/-- **C4** — the free-text search score is the additive sum of the three
bonuses: `+10` when the full (case-folded) query appears contiguously in the
snippet's searchable text, `+2` per query word found in that text, `+5` when
the bare `name` contains the query; consequently a snippet whose description
contains the exact phrase "jwt auth" scores at least `10 + 2 + 2 = 14` for the
query `"jwt auth"` before any name-match bonus.
(search generator, `findMatchingSnippets`.) -/
theorem search_score_additive (s : Snippet) (query : String) :
    snippetScore s query =
      (if jsIncludes (searchText s) (sLower query) then 10 else 0) +
        2 * ((jsSplitWs (sLower query)).countP
            (fun w => jsIncludes (searchText s) w)) +
        (if jsIncludes (sLower s.name) (sLower query) then 5 else 0) ∧
    (jsIncludes (sLower s.description) "jwt auth" = true →
      14 ≤ (if jsIncludes (searchText s) (sLower "jwt auth") then 10 else 0) +
          2 * ((jsSplitWs (sLower "jwt auth")).countP
              (fun w => jsIncludes (searchText s) w)) ∧
        14 ≤ snippetScore s "jwt auth") := by
  refine ⟨snippetScore_eq s query, fun h => ?_⟩
  have htext : jsIncludes (searchText s) "jwt auth" = true :=
    jsIncludes_joinSp_of_mem (by simp) h
  have hjwt : jsIncludes (searchText s) "jwt" = true :=
    hasSub_trans htext (by decide)
  have hauth : jsIncludes (searchText s) "auth" = true :=
    hasSub_trans htext (by decide)
  have hlow : sLower "jwt auth" = "jwt auth" := by decide
  have hsplit : jsSplitWs "jwt auth" = ["jwt", "auth"] := by decide
  have hcount : (["jwt", "auth"] : List String).countP
      (fun w => jsIncludes (searchText s) w) = 2 := by
    simp [List.countP_cons, hjwt, hauth]
  have hpart : 14 ≤ (if jsIncludes (searchText s) (sLower "jwt auth")
      then 10 else 0) +
      2 * ((jsSplitWs (sLower "jwt auth")).countP
          (fun w => jsIncludes (searchText s) w)) := by
    rw [hlow, hsplit, hcount, if_pos htext]
  refine ⟨hpart, ?_⟩
  rw [snippetScore_eq s "jwt auth", hlow, hsplit, hcount, if_pos (hlow ▸ htext)]
  split <;> omega

/-- A concrete snippet whose description contains the phrase "jwt auth". -/
def jwtSnippet : Snippet :=
  { id := "jwt-auth", name := "jwt-auth", displayName := "JWT Auth",
    description := "Drop-in jwt auth middleware",
    purpose := "Authenticate requests", features := ["Token verification"],
    usage := "app.use(auth)", output := "middleware",
    dependencies := ["jsonwebtoken"], command := "npx hanma add jwt-auth" }

/-- Witness for `search_score_additive`: at a concrete snippet whose
description contains "jwt auth", the query "jwt auth" scores at least 14. -/
theorem search_score_additive_witness : 14 ≤ snippetScore jwtSnippet "jwt auth" :=
  ((search_score_additive jwtSnippet "jwt auth").2 (by decide)).2

/-! ## C3: search with the empty query -/

theorem snippetScore_empty (s : Snippet) : snippetScore s "" = 17 := by
  rw [snippetScore_eq]
  have h1 : jsIncludes (searchText s) (sLower "") = true := hasSub_nil _
  have h2 : jsIncludes (sLower s.name) (sLower "") = true := hasSub_nil _
  have h4 : jsIncludes (searchText s) "" = true := hasSub_nil _
  rw [if_pos h1, if_pos h2]
  have h3 : jsSplitWs (sLower "") = [""] := rfl
  rw [h3]
  simp [List.countP_cons, h4]

/-- A concrete snippet used as input for the empty-query counterexample. -/
def corsSnippet : Snippet :=
  { id := "cors", name := "cors", displayName := "CORS Middleware",
    description := "Configurable CORS middleware",
    purpose := "Enable cross-origin requests",
    features := ["Origin whitelist"], usage := "app.use(cors())",
    output := "middleware", dependencies := ["cors"],
    command := "npx hanma add cors" }

/-- **C3 counterexample** — the claim says search with the empty query
returns the empty result set; in the code the empty query matches every
snippet (score 17), so on a one-snippet list the result is that snippet, not
`[]`. -/
theorem empty_query_counterexample :
    findMatchingSnippets [corsSnippet] "" = [⟨corsSnippet, 17⟩] ∧
      findMatchingSnippets [corsSnippet] "" ≠ [] := by
  have h : findMatchingSnippets [corsSnippet] "" = [⟨corsSnippet, 17⟩] := by
    simp only [findMatchingSnippets]
    rw [show ([corsSnippet].map
        fun s => (⟨s, snippetScore s ""⟩ : ScoredSnippet)) = [⟨corsSnippet, 17⟩] by
      simp [snippetScore_empty]]
    rw [show (([⟨corsSnippet, 17⟩] : List ScoredSnippet).filter
        fun m => decide (0 < m.score)) = [⟨corsSnippet, 17⟩] by decide]
    exact List.mergeSort_singleton _
  exact ⟨h, by rw [h]; simp⟩

/-- **C3 (amended)** — free-text search with the empty query string matches
*every* snippet, each with score 17 (10 phrase bonus for the empty substring,
2 for the one empty query word, 5 name bonus): the result has one entry per
snippet, not the empty set.  (search generator, `findMatchingSnippets`.) -/
theorem empty_query_matches_all (snippets : List Snippet) :
    (findMatchingSnippets snippets "").length = snippets.length ∧
      ∀ m ∈ findMatchingSnippets snippets "", m.score = 17 := by
  have hfilter : ((snippets.map
      fun s => (⟨s, snippetScore s ""⟩ : ScoredSnippet)).filter
        fun m => decide (0 < m.score)) =
      snippets.map fun s => ⟨s, snippetScore s ""⟩ := by
    apply List.filter_eq_self.mpr
    intro m hm
    obtain ⟨s, _, rfl⟩ := List.mem_map.mp hm
    simp [snippetScore_empty]
  constructor
  · simp only [findMatchingSnippets]
    rw [List.length_mergeSort, hfilter, List.length_map]
  · intro m hm
    simp only [findMatchingSnippets] at hm
    have hmem := List.mem_mergeSort.mp hm
    rw [hfilter] at hmem
    obtain ⟨s, _, rfl⟩ := List.mem_map.mp hmem
    exact snippetScore_empty s

/-- Witness for `empty_query_matches_all`: on the concrete one-element list
the entry produced for the empty query has score 17. -/
theorem empty_query_matches_all_witness :
    (⟨corsSnippet, 17⟩ : ScoredSnippet).score = 17 :=
  (empty_query_matches_all [corsSnippet]).2 ⟨corsSnippet, 17⟩
    (List.mem_mergeSort.mpr (by decide))

/-! ## Tag and use-case extraction (`extractTags`,
`extractUseCaseFromSnippet`) -/

/-- The tag keyword table of `extractTags` (tag generator), in `Object.entries`
order (string-keyed objects iterate in insertion order). -/
def tagPatterns : List (String × List String) :=
  [("authentication", ["auth", "login", "jwt", "session", "password", "oauth", "token"]),
   ("authorization", ["permission", "role", "guard", "access", "admin", "authorize"]),
   ("cors", ["cors", "cross-origin", "origin"]),
   ("database", ["db", "database", "sql", "prisma", "drizzle", "query", "repository"]),
   ("error-handling", ["error", "exception", "handle", "throw"]),
   ("file-upload", ["upload", "file", "multipart", "s3", "storage"]),
   ("jwt", ["jwt", "token", "bearer"]),
   ("logging", ["log", "logger", "pino", "winston"]),
   ("middleware", ["middleware", "hook", "intercept"]),
   ("performance", ["performance", "optimize", "cache", "benchmark"]),
   ("rate-limiting", ["rate", "limit", "throttle", " quota"]),
   ("routing", ["route", "router", "endpoint", "path"]),
   ("security", ["security", "header", "csrf", "xss", "helmet"]),
   ("testing", ["test", "mock", "vitest", "jest", "unit"]),
   ("validation", ["validate", "schema", "input", "typebox", "zod"]),
   ("websocket", ["ws", "socket", " realtime", " realtime"]),
   ("cache", ["cache", "redis", "memory"]),
   ("monitoring", ["monitor", "metrics", "telemetry", "opentelemetry"]),
   ("configuration", ["config", "env", "environment", "dotenv"])]

/-- The use-case keyword table of `extractUseCaseFromSnippet` (use-case
generator), in `Object.entries` order. -/
def useCasePatterns : List (String × List String) :=
  [("authentication", ["auth", "login", "jwt", "session", "password", "oauth"]),
   ("authorization", ["permission", "role", "guard", "access", "admin"]),
   ("logging", ["log", "logger", "monitor", "trace"]),
   ("validation", ["validate", "schema", "input", "type"]),
   ("error", ["error", "exception", "handle"]),
   ("rate", ["rate", "limit", "throttle"]),
   ("cors", ["cors", "cross-origin", "origin"]),
   ("database", ["db", "database", "query", "sql", "prisma", "drizzle"]),
   ("cache", ["cache", "redis", "memory"]),
   ("file", ["upload", "file", "multipart", "s3"]),
   ("websocket", ["ws", "socket", "realtime", " realtime"]),
   ("testing", ["test", "mock", "unit", "e2e"]),
   ("middleware", ["middleware", "hook", "intercept"]),
   ("routing", ["route", "router", "endpoint"]),
   ("security", ["security", "header", "csrf", "xss"])]

/-- The searchable text of `extractTags`:
`[purpose, description, ...features, name, displayName, output].join(" ").toLowerCase()`. -/
def extractText (s : Snippet) : String :=
  sLower (joinSp ([s.purpose, s.description] ++ s.features ++
    [s.name, s.displayName, s.output]))

/-- The searchable text of `extractUseCaseFromSnippet`: purpose, description
and each feature are lower-cased individually and joined with a space. -/
def useCaseText (s : Snippet) : String :=
  joinSp ([sLower s.purpose, sLower s.description] ++ s.features.map sLower)

/-- The shared classification loop of `extractTags` and
`extractUseCaseFromSnippet`: push every table key one of whose keywords
occurs in the text; fall back to `["general"]` when nothing was pushed. -/
def classify (table : List (String × List String)) (text : String) :
    List String :=
  let hits := table.foldl
    (fun acc p => if p.2.any (fun kw => jsIncludes text kw) then acc ++ [p.1]
      else acc) []
  if 0 < hits.length then hits else ["general"]

/-- `extractTags` from the tag generator. -/
def extractTags (s : Snippet) : List String := classify tagPatterns (extractText s)

/-- `extractUseCaseFromSnippet` from the use-case generator. -/
def extractUseCaseFromSnippet (s : Snippet) : List String :=
  classify useCasePatterns (useCaseText s)

theorem foldl_pushIf {α β : Type} (q : α → Bool) (f : α → β) :
    ∀ (l : List α) (init : List β),
      l.foldl (fun acc p => if q p then acc ++ [f p] else acc) init =
        init ++ (l.filter q).map f := by
  intro l
  induction l with
  | nil => intro init; simp
  | cons a as ih =>
    intro init
    by_cases hq : q a = true
    · simp [List.filter_cons, hq, ih, List.append_assoc]
    · simp [List.filter_cons, hq, ih]

theorem classify_spec (table : List (String × List String)) (text : String)
    (hgen : "general" ∉ table.map Prod.fst) :
    classify table text ≠ [] ∧
      (classify table text = ["general"] ↔
        ∀ p ∈ table, ∀ kw ∈ p.2, jsIncludes text kw = false) ∧
      ("general" ∈ classify table text ↔ classify table text = ["general"]) := by
  set q : (String × List String) → Bool :=
    fun p => p.2.any (fun kw => jsIncludes text kw) with hq
  have hc : classify table text =
      if 0 < ((table.filter q).map Prod.fst).length then
        (table.filter q).map Prod.fst
      else ["general"] := by
    unfold classify
    rw [foldl_pushIf]
    simp
  set L := (table.filter q).map Prod.fst with hL
  have hsubset : ∀ t ∈ L, t ∈ table.map Prod.fst := by
    intro t ht
    obtain ⟨p, hp, rfl⟩ := List.mem_map.mp ht
    exact List.mem_map.mpr ⟨p, List.mem_of_mem_filter hp, rfl⟩
  have hnomem : "general" ∉ L := fun h => hgen (hsubset _ h)
  have hLiff : L = [] ↔ ∀ p ∈ table, ∀ kw ∈ p.2, jsIncludes text kw = false := by
    rw [hL, List.map_eq_nil_iff, List.filter_eq_nil_iff]
    constructor
    · intro h p hp kw hkw
      have hfalse := h p hp
      simp only [hq, Bool.not_eq_true] at hfalse
      simpa using List.any_eq_false.mp hfalse kw hkw
    · intro h p hp
      simp only [hq, Bool.not_eq_true]
      exact List.any_eq_false.mpr (fun kw hkw => by simp [h p hp kw hkw])
  by_cases h0 : 0 < L.length
  · have hLne : L ≠ [] := by
      intro h
      rw [h] at h0
      simp at h0
    rw [hc, if_pos h0]
    refine ⟨hLne, ?_, ?_⟩
    · constructor
      · intro heq
        exfalso
        exact hnomem (heq ▸ List.mem_cons_self _ _)
      · intro hall
        exact absurd (hLiff.mpr hall) hLne
    · exact ⟨fun hmem => absurd hmem hnomem,
        fun heq => heq ▸ List.mem_cons_self _ _⟩
  · rw [hc, if_neg h0]
    have hLnil : L = [] := by
      cases hL2 : L with
      | nil => rfl
      | cons x xs => rw [hL2] at h0; simp at h0
    exact ⟨by simp, ⟨fun _ => hLiff.mp hLnil, fun _ => rfl⟩, by simp⟩

/-- **C5** — tag extraction and use-case extraction return the sentinel
`["general"]` exactly when no keyword list matched the snippet's searchable
text; a snippet never carries both a real classification and the fallback,
and the returned list is never empty.  (`extractTags`, tag generator;
`extractUseCaseFromSnippet`, use-case generator.) -/
theorem extraction_general_fallback (s : Snippet) :
    (extractTags s ≠ [] ∧
      (extractTags s = ["general"] ↔
        ∀ p ∈ tagPatterns, ∀ kw ∈ p.2,
          jsIncludes (extractText s) kw = false) ∧
      ("general" ∈ extractTags s ↔ extractTags s = ["general"])) ∧
    (extractUseCaseFromSnippet s ≠ [] ∧
      (extractUseCaseFromSnippet s = ["general"] ↔
        ∀ p ∈ useCasePatterns, ∀ kw ∈ p.2,
          jsIncludes (useCaseText s) kw = false) ∧
      ("general" ∈ extractUseCaseFromSnippet s ↔
        extractUseCaseFromSnippet s = ["general"])) :=
  ⟨classify_spec tagPatterns (extractText s) (by decide),
   classify_spec useCasePatterns (useCaseText s) (by decide)⟩

/-- Witness for `extraction_general_fallback` at a concrete snippet: the
cors snippet is classified, among others, under "cors", and not under
"general". -/
theorem extraction_general_fallback_witness :
    extractTags corsSnippet ≠ [] ∧ "general" ∉ extractTags corsSnippet := by
  have h := (extraction_general_fallback corsSnippet).1
  refine ⟨h.1, fun hmem => ?_⟩
  have heq := h.2.2.mp hmem
  have hfalse := h.2.1.mp heq ("cors", ["cors", "cross-origin", "origin"])
    (by decide) "cors" (by decide)
  have htrue : jsIncludes (extractText corsSnippet) "cors" = true := by decide
  rw [htrue] at hfalse
  cases hfalse

/-! ## The metadata synthesizer (`generateMetadata`, `utils/seo-metadata.ts`) -/

/-- Modelled from the spec: `SITE_URL` is "a fixed site origin" imported from
`constant.ts`, a file that is not among the sources; no claim below depends
on its concrete value. -/
def SITE_URL : String := "https://hanma.dev"

/-- The page-type enumeration (the keys of `titleTemplates`). -/
inductive PageType
  | framework | category | snippet | useCase | guide | pattern | tag | search | home
deriving DecidableEq, Repr

/-- `PageContext` from `types.ts`: every field optional. -/
structure PageContext where
  framework : Option String := none
  category : Option String := none
  snippet : Option String := none
  useCase : Option String := none
  guide : Option String := none
  pattern : Option String := none
  tag : Option String := none
  query : Option String := none
deriving DecidableEq, Repr

/-- The fields of the snippet record read by the snippet description
template. -/
structure SnippetMeta where
  description : String
  features : List String
  command : String
deriving DecidableEq, Repr

/-- The (duck-typed) `additionalData` record: each key optional. -/
structure AdditionalData where
  frameworkDescription : Option String := none
  snippetCount : Option Nat := none
  topFeatures : Option (List String) := none
  snippetData : Option SnippetMeta := none
  resultCount : Option Nat := none
  topSnippets : Option (List String) := none
  tagName : Option String := none
  patternName : Option String := none
  tutorialTopic : Option String := none
  searchQuery : Option String := none
deriving DecidableEq, Repr

/-- `PageMetadata` as returned by `generateMetadata` (the optional `noindex`
field is never set there). -/
structure PageMetadata where
  title : String
  description : String
  canonical : String
  ogTitle : String
  ogDescription : String
  ogImage : String
deriving DecidableEq, Repr

/-- JS `x || ""` on a possibly-undefined string. -/
def orEmpty (x : Option String) : String := x.getD ""

/-- JS `x || 0` on a possibly-undefined number. -/
def orZero (x : Option Nat) : Nat := x.getD 0

/-- JS `x || []` on a possibly-undefined array. -/
def orNil (x : Option (List String)) : List String := x.getD []

/-- JS template-literal interpolation of a possibly-undefined value:
`undefined` prints as the string "undefined".  (The canonical URLs
interpolate the raw context fields, without the `|| ""` guard.) -/
def interp (x : Option String) : String := x.getD "undefined"

/-- JS `Array.prototype.join(sep)`. -/
def jsJoin (sep : String) : List String → String
  | [] => ""
  | [s] => s
  | s :: rest => s ++ sep ++ jsJoin sep rest

/-! The per-type title templates (`titleTemplates`). -/

def titleTemplates_framework (framework : String) : String :=
  framework ++ " Snippets & Code Examples | Hanma"

def titleTemplates_category (category framework : String) : String :=
  category ++ " " ++ framework ++ " Snippets | Hanma"

def titleTemplates_snippet (snippetName framework category : String) : String :=
  snippetName ++ " - " ++ framework ++ " " ++ category ++ " Snippet | Hanma"

def titleTemplates_useCase (useCase framework : String) : String :=
  useCase ++ " in " ++ framework ++ " | Code Example | Hanma"

def titleTemplates_guide (task framework : String) : String :=
  "How to " ++ task ++ " in " ++ framework ++ " | Tutorial | Hanma"

def titleTemplates_pattern (pat framework : String) : String :=
  pat ++ " Pattern | " ++ framework ++ " Implementation | Hanma"

def titleTemplates_tag (tag framework : String) : String :=
  tag ++ " Snippets | " ++ framework ++ " Code Examples | Hanma"

def titleTemplates_search (query framework : String) : String :=
  query ++ " | " ++ framework ++ " Code Snippets | Hanma"

def titleTemplates_home : String := "Hanma - Backend Code Snippets Library"

/-! The per-type description templates (`descriptionTemplates`). -/

def descriptionTemplates_framework (framework description : String) : String :=
  "Production-ready " ++ framework ++ " snippets, templates, and modules. " ++
    description ++ ". Copy-paste code for authentication, middleware, database, and more."

def descriptionTemplates_category (category framework : String) (count : Nat)
    (topFeatures : List String) : String :=
  "Browse " ++ toString count ++ " " ++ category ++ " " ++ framework ++
    " snippets. Includes " ++ jsJoin ", " (topFeatures.take 3) ++
    ". Copy and paste into your project."

/-- The snippet description template reads `.description` of its argument,
so the JS function throws a `TypeError` when the argument is `undefined`. -/
def descriptionTemplates_snippet : Option SnippetMeta → Except String String
  | none => .error "TypeError: Cannot read properties of undefined"
  | some d => .ok (d.description ++ ". Features: " ++
      jsJoin ", " (d.features.take 3) ++ ". Install with: " ++ d.command)

def descriptionTemplates_useCase (useCase framework : String) : String :=
  "Learn how to implement " ++ useCase ++ " in " ++ framework ++
    ". Complete code example with explanations and best practices."

def descriptionTemplates_guide (task framework : String) : String :=
  "Step-by-step tutorial: " ++ task ++ " in " ++ framework ++
    ". Includes code examples, common issues, and solutions."

def descriptionTemplates_pattern (pat framework : String) : String :=
  "Understand " ++ pat ++ " pattern in " ++ framework ++
    ". Implementation examples and when to use it."

def descriptionTemplates_tag (tag framework : String) (count : Nat)
    (topSnippets : List String) : String :=
  "Explore " ++ toString count ++ " " ++ tag ++ " snippets for " ++ framework ++
    ". Includes " ++ jsJoin ", " (topSnippets.take 3) ++ "."

def descriptionTemplates_search (query framework : String) (resultCount : Nat) :
    String :=
  "Find " ++ query ++ " code snippets for " ++ framework ++ ". " ++
    toString resultCount ++ " results found."

def descriptionTemplates_home : String :=
  "Production-ready backend code snippets for Express, Hono, Elysia, Fastify, and NestJS. Copy-paste code for authentication, middleware, database, and more."

/-- `generateMetadata` from `utils/seo-metadata.ts`.  Every branch except
`snippet` guards each context field with `|| ""`; the canonical URLs
interpolate the raw fields.  The `snippet` branch passes
`additionalData?.snippetData` unguarded into the snippet description
template, which throws when it is `undefined` (modelled by `Except`). -/
def generateMetadata (pageType : PageType) (context : PageContext)
    (additionalData : Option AdditionalData) : Except String PageMetadata :=
  let mk : String → String → String → PageMetadata := fun title description canonical =>
    { title := title, description := description, canonical := canonical,
      ogTitle := title, ogDescription := description,
      ogImage := SITE_URL ++ "/og-image.png" }
  match pageType with
  | .framework =>
    .ok (mk (titleTemplates_framework (orEmpty context.framework))
      (descriptionTemplates_framework (orEmpty context.framework)
        (orEmpty (additionalData.bind (·.frameworkDescription))))
      (SITE_URL ++ "/framework/" ++ interp context.framework))
  | .category =>
    .ok (mk (titleTemplates_category (orEmpty context.category)
        (orEmpty context.framework))
      (descriptionTemplates_category (orEmpty context.category)
        (orEmpty context.framework)
        (orZero (additionalData.bind (·.snippetCount)))
        (orNil (additionalData.bind (·.topFeatures))))
      (SITE_URL ++ "/framework/" ++ interp context.framework ++ "/" ++
        interp context.category))
  | .snippet =>
    match descriptionTemplates_snippet (additionalData.bind (·.snippetData)) with
    | .error e => .error e
    | .ok description =>
      .ok (mk (titleTemplates_snippet (orEmpty context.snippet)
          (orEmpty context.framework) (orEmpty context.category))
        description
        (SITE_URL ++ "/snippet/" ++ interp context.framework ++ "/" ++
          interp context.category ++ "/" ++ interp context.snippet))
  | .useCase =>
    .ok (mk (titleTemplates_useCase (orEmpty context.useCase)
        (orEmpty context.framework))
      (descriptionTemplates_useCase (orEmpty context.useCase)
        (orEmpty context.framework))
      (SITE_URL ++ "/use-case/" ++ interp context.useCase))
  | .guide =>
    .ok (mk (titleTemplates_guide (orEmpty context.guide)
        (orEmpty context.framework))
      (descriptionTemplates_guide (orEmpty context.guide)
        (orEmpty context.framework))
      (SITE_URL ++ "/guide/" ++ interp context.guide))
  | .pattern =>
    .ok (mk (titleTemplates_pattern (orEmpty context.pattern)
        (orEmpty context.framework))
      (descriptionTemplates_pattern (orEmpty context.pattern)
        (orEmpty context.framework))
      (SITE_URL ++ "/pattern/" ++ interp context.pattern))
  | .tag =>
    .ok (mk (titleTemplates_tag (orEmpty context.tag) (orEmpty context.framework))
      (descriptionTemplates_tag (orEmpty context.tag) (orEmpty context.framework)
        (orZero (additionalData.bind (·.snippetCount)))
        (orNil (additionalData.bind (·.topSnippets))))
      (SITE_URL ++ "/tag/" ++ interp context.tag))
  | .search =>
    .ok (mk (titleTemplates_search (orEmpty context.query)
        (orEmpty context.framework))
      (descriptionTemplates_search (orEmpty context.query)
        (orEmpty context.framework)
        (orZero (additionalData.bind (·.resultCount))))
      (SITE_URL ++ "/search/" ++ interp context.query))
  | .home =>
    .ok (mk titleTemplates_home descriptionTemplates_home SITE_URL)

/-- **C2 counterexample** — `generateMetadata("snippet", context)` with the
`additionalData` record absent throws (the snippet description template reads
`.description` of `undefined`), instead of degrading to empty strings. -/
theorem generateMetadata_snippet_throws :
    generateMetadata .snippet {} none =
      .error "TypeError: Cannot read properties of undefined" := rfl

/-- **C2 (amended)** — `generateMetadata` substitutes missing context fields
by the empty string and returns a `PageMetadata` for every page type and
every context, *except* that the `snippet` page type requires
`additionalData.snippetData`: when that record is present (and always, for
the other eight page types), the call returns without throwing.
(`utils/seo-metadata.ts`, `generateMetadata`.) -/
theorem generateMetadata_total (pt : PageType) (ctx : PageContext)
    (ad : Option AdditionalData)
    (h : pt = .snippet → (ad.bind (·.snippetData)).isSome = true) :
    ∃ m, generateMetadata pt ctx ad = .ok m := by
  cases pt
  case snippet =>
    have hs := h rfl
    obtain ⟨d, hd⟩ := Option.isSome_iff_exists.mp hs
    unfold generateMetadata
    rw [hd]
    exact ⟨_, rfl⟩
  all_goals exact ⟨_, rfl⟩

/-- Witness for `generateMetadata_total`: the `framework` page type with an
entirely empty context succeeds. -/
theorem generateMetadata_total_witness :
    ∃ m, generateMetadata .framework {} none = .ok m :=
  generateMetadata_total .framework {} none (fun h => by cases h)

/-! ## Breadcrumb JSON-LD (`generateBreadcrumbJsonLd`,
`utils/seo-metadata.ts`) -/

/-- One input breadcrumb item. -/
structure BreadcrumbItem where
  name : String
  url : String
deriving DecidableEq, Repr

/-- One `ListItem` of the emitted `BreadcrumbList`. -/
structure BreadcrumbListItem where
  position : Nat
  name : String
  item : String
deriving DecidableEq, Repr

/-- The `itemListElement` array built by `generateBreadcrumbJsonLd`:
`items.map((item, index) => ({position: index + 1, name: item.name,
item: item.url}))`.  (The surrounding constant JSON-LD fields and the
`JSON.stringify` serialization are not modelled.) -/
def generateBreadcrumbJsonLd (items : List BreadcrumbItem) :
    List BreadcrumbListItem :=
  items.enum.map (fun p => ⟨p.1 + 1, p.2.name, p.2.url⟩)

/-- **C9** — the breadcrumb JSON-LD list has exactly one `ListItem` per input
item, in input order, with 1-based `position = i + 1` and `name`/`item`
copied from the i-th input.  (`utils/seo-metadata.ts`,
`generateBreadcrumbJsonLd`.) -/
theorem breadcrumb_list_spec (items : List BreadcrumbItem) :
    (generateBreadcrumbJsonLd items).length = items.length ∧
      ∀ (i : Nat) (item : BreadcrumbItem), items[i]? = some item →
        (generateBreadcrumbJsonLd items)[i]? =
          some (⟨i + 1, item.name, item.url⟩ : BreadcrumbListItem) := by
  constructor
  · simp [generateBreadcrumbJsonLd]
  · intro i item hi
    simp only [generateBreadcrumbJsonLd, List.getElem?_map, List.getElem?_enum, hi]
    rfl

/-- Witness for `breadcrumb_list_spec`: the second entry of a concrete
breadcrumb list has position 2 and the second item's name and url. -/
theorem breadcrumb_list_spec_witness :
    (generateBreadcrumbJsonLd
        [⟨"Home", "/"⟩, ⟨"Compare", "/compare"⟩])[1]? =
      some ⟨2, "Compare", "/compare"⟩ :=
  (breadcrumb_list_spec [⟨"Home", "/"⟩, ⟨"Compare", "/compare"⟩]).2 1
    ⟨"Compare", "/compare"⟩ (by decide)

/-! ## The content loader (`utils/content-loader.ts`) -/

/-- `Framework` from `types.ts`. -/
structure Framework where
  id : String
  name : String
  description : String
deriving DecidableEq, Repr

/-- `loadAllFrameworks`: the hardcoded framework set (never touches the
filesystem). -/
def loadAllFrameworks : List Framework :=
  [⟨"express", "Express.js",
    "The battle-tested standard. Middleware and controllers compatible with Express 4 and 5."⟩,
   ⟨"hono", "Hono",
    "Ultrafast web framework for the Edge. Runs on Cloudflare Workers, Deno, and Bun."⟩,
   ⟨"elysia", "Elysia",
    "Ergonomic framework for Bun. End-to-end type safety with TypeBox integration."⟩,
   ⟨"fastify", "Fastify",
    "Fast and low overhead web framework, focused on providing the best developer experience."⟩,
   ⟨"nest", "NestJS",
    "A progressive Node.js framework for building efficient, scalable, and enterprise-grade server-side applications."⟩]

/-- `CategoryFile` from `types.ts`: one entry of the index document. -/
structure CategoryFileRef where
  id : String
  file : String
  title : String
  description : String
deriving DecidableEq, Repr

/-- `FrameworkContent` from `types.ts`: the parsed index document. -/
structure FrameworkContent where
  framework : String
  version : String
  title : String
  description : String
  installNote : String
  categoryFiles : List CategoryFileRef
deriving DecidableEq, Repr

/-- One subcategory group of a category document. -/
structure Subcategory where
  snippets : List Snippet
deriving DecidableEq, Repr

/-- The raw JSON shape of one category document (`subcategories` may be
absent). -/
structure CategoryRaw where
  id : String
  title : String
  description : String
  subcategories : Option (List Subcategory)
deriving DecidableEq, Repr

/-- `Category` from `types.ts`. -/
structure Category where
  id : String
  title : String
  description : String
  snippets : List Snippet
deriving DecidableEq, Repr

/-- The filesystem/JSON environment of one build: what `readFile` followed by
`JSON.parse` yields for the framework index document and for each category
document.  `none` models any read or parse failure (always caught by the
loader's `try`/`catch`). -/
structure ContentEnv where
  frameworkIndex : String → Option FrameworkContent
  categoryFile : String → String → Option CategoryRaw

/-- `loadFrameworkContent`: read and parse the index document, `null` on
failure. -/
def loadFrameworkContent (env : ContentEnv) (frameworkId : String) :
    Option FrameworkContent :=
  env.frameworkIndex frameworkId

/-- `loadCategoryContent`: on success flatten the snippets of all
subcategories (`data.subcategories?.flatMap(sub => sub.snippets) || []`); on
read/parse failure return `null` and record the `console.warn` line. -/
def loadCategoryContent (env : ContentEnv) (frameworkId categoryId : String) :
    Option Category × List String :=
  match env.categoryFile frameworkId categoryId with
  | none =>
    (none, ["Could not load category " ++ categoryId ++ " for " ++ frameworkId])
  | some data =>
    (some { id := data.id, title := data.title, description := data.description,
            snippets :=
              (data.subcategories.map
                (fun subs => subs.flatMap (·.snippets))).getD [] },
     [])

/-- `loadFrameworkCategories`: load the index, then each listed category file
in index order, pushing each successfully loaded category (`if (category)
categories.push(category)`, modelled by appending `Option.toList`) and
keeping the warnings of the failed ones; an unloadable index yields `[]`.
(The loader's own outer `catch` is unreachable: both inner loads already
catch.) -/
def loadFrameworkCategories (env : ContentEnv) (frameworkId : String) :
    List Category × List String :=
  match loadFrameworkContent env frameworkId with
  | none => ([], ["Could not load framework content for " ++ frameworkId])
  | some fc =>
    fc.categoryFiles.foldl
      (fun acc cf =>
        let r := loadCategoryContent env frameworkId cf.id
        (acc.1 ++ r.1.toList, acc.2 ++ r.2))
      ([], [])

/-- The categories a generator sees for a framework. -/
def categoriesOf (env : ContentEnv) (frameworkId : String) : List Category :=
  (loadFrameworkCategories env frameworkId).1

theorem loadFC_fold (env : ContentEnv) (fwId : String) :
    ∀ (l : List CategoryFileRef) (acc : List Category × List String),
      (l.foldl
        (fun acc cf =>
          let r := loadCategoryContent env fwId cf.id
          (acc.1 ++ r.1.toList, acc.2 ++ r.2))
        acc).1 =
          acc.1 ++ l.filterMap (fun cf => (loadCategoryContent env fwId cf.id).1) ∧
      (l.foldl
        (fun acc cf =>
          let r := loadCategoryContent env fwId cf.id
          (acc.1 ++ r.1.toList, acc.2 ++ r.2))
        acc).2.length =
          acc.2.length +
            (l.filter (fun cf => (env.categoryFile fwId cf.id).isNone)).length := by
  intro l
  induction l with
  | nil => intro acc; simp
  | cons cf cfs ih =>
    intro acc
    simp only [List.foldl_cons, List.filterMap_cons, List.filter_cons]
    refine ⟨?_, ?_⟩
    · rw [(ih _).1]
      cases hr : (loadCategoryContent env fwId cf.id).1 with
      | none => simp [hr]
      | some c => simp [hr]
    · rw [(ih _).2]
      cases hcat : env.categoryFile fwId cf.id with
      | none =>
        have hw : (loadCategoryContent env fwId cf.id).2 =
            ["Could not load category " ++ cf.id ++ " for " ++ fwId] := by
          unfold loadCategoryContent
          rw [hcat]
        simp [hw, hcat]
        omega
      | some data =>
        have hw : (loadCategoryContent env fwId cf.id).2 = [] := by
          unfold loadCategoryContent
          rw [hcat]
        simp [hw, hcat]

/-- **C8** — `loadFrameworkCategories` is best-effort aggregation: if the
index document cannot be loaded the call returns the empty list; otherwise it
returns exactly the successfully loaded categories, in index order (failures
are skipped), and records one warning per failed category file — the overall
call never fails.  (`utils/content-loader.ts`.) -/
theorem loadFrameworkCategories_spec (env : ContentEnv) (fwId : String) :
    (loadFrameworkContent env fwId = none → categoriesOf env fwId = []) ∧
      ∀ fc, loadFrameworkContent env fwId = some fc →
        categoriesOf env fwId =
            fc.categoryFiles.filterMap
              (fun cf => (loadCategoryContent env fwId cf.id).1) ∧
          (loadFrameworkCategories env fwId).2.length =
            (fc.categoryFiles.filter
              (fun cf => (env.categoryFile fwId cf.id).isNone)).length := by
  constructor
  · intro h
    unfold categoriesOf loadFrameworkCategories
    rw [h]
  · intro fc h
    unfold categoriesOf loadFrameworkCategories
    rw [h]
    have := loadFC_fold env fwId fc.categoryFiles ([], [])
    exact ⟨by rw [this.1]; simp, by rw [this.2]; simp⟩

/-- A concrete category document for the C8 witness. -/
def demoRaw : CategoryRaw :=
  { id := "middleware", title := "Middleware", description := "Middleware snippets",
    subcategories := some [⟨[corsSnippet]⟩] }

/-- A concrete index document listing one unreadable and one readable
category file. -/
def demoIndex : FrameworkContent :=
  { framework := "express", version := "5", title := "Express.js",
    description := "Express snippets", installNote := "",
    categoryFiles :=
      [⟨"broken", "broken.json", "Broken", ""⟩,
       ⟨"middleware", "middleware.json", "Middleware", ""⟩] }

/-- A concrete content environment where the category file `broken` fails to
load and `middleware` loads. -/
def demoEnv : ContentEnv :=
  { frameworkIndex := fun fwId => if fwId = "express" then some demoIndex else none,
    categoryFile := fun fwId catId =>
      if fwId = "express" then
        if catId = "middleware" then some demoRaw else none
      else none }

/-- Witness for `loadFrameworkCategories_spec`: in the concrete environment
the broken category is skipped (with one warning) and the loaded category
list is exactly the middleware category. -/
theorem loadFrameworkCategories_spec_witness :
    categoriesOf demoEnv "express" =
        [{ id := "middleware", title := "Middleware",
           description := "Middleware snippets", snippets := [corsSnippet] }] ∧
      (loadFrameworkCategories demoEnv "express").2.length = 1 := by
  have h := (loadFrameworkCategories_spec demoEnv "express").2 demoIndex rfl
  refine ⟨?_, ?_⟩
  · rw [h.1]; decide
  · rw [h.2]; decide

/-! ## Fixed vocabularies of the generators -/

/-- `SEARCH_QUERIES` (search generator). -/
def SEARCH_QUERIES : List String :=
  ["express js middleware example", "express js custom middleware", "express js error handling",
  "express js async error handler", "express js validation", "express js request validation",
  "express js jwt authentication", "express js oauth authentication", "express js session management",
  "express js cors", "express js rate limiting", "express js logging",
  "express js morgan logging", "express js database connection", "express js mongodb integration",
  "express js postgresql integration", "express js prisma example", "express js sequelize example",
  "express js file upload", "express js multer example", "express js image upload",
  "express js websocket", "express js socket.io", "express js api versioning",
  "express js health check", "express js security best practices", "express js helmet",
  "express js csrf protection", "express js unit testing", "express js jest testing",
  "express js supertest example", "express js production setup", "hono js middleware",
  "hono js custom middleware", "hono js authentication", "hono js jwt authentication",
  "hono js oauth", "hono js cors", "hono js rate limiter",
  "hono js logging", "hono js error handling", "hono js global error handler",
  "hono js validation", "hono js zod validation", "hono js database",
  "hono js drizzle orm", "hono js prisma", "hono js cloudflare workers",
  "hono js bun runtime", "hono js deno runtime", "hono js file upload",
  "hono js multipart form", "hono js testing", "hono js unit tests",
  "hono js api versioning", "hono js security headers", "hono js performance",
  "hono js edge functions", "elysia js getting started", "elysia js middleware",
  "elysia js plugin example", "elysia js jwt", "elysia js authentication",
  "elysia js validation", "elysia js typebox validation", "elysia js error handler",
  "elysia js global error handling", "elysia js cors", "elysia js security headers",
  "elysia js rate limiting", "elysia js logging", "elysia js request lifecycle",
  "elysia js database integration", "elysia js prisma", "elysia js drizzle orm",
  "elysia js websocket", "elysia js real time", "elysia js file upload",
  "elysia js testing", "elysia js bun performance", "elysia js production deployment",
  "fastify getting started", "fastify middleware", "fastify hooks",
  "fastify authentication", "fastify jwt", "fastify oauth",
  "fastify rate limiting", "fastify validation", "fastify schema validation",
  "fastify error handling", "fastify custom error handler", "fastify logging",
  "fastify pino logging", "fastify database integration", "fastify prisma",
  "fastify mongodb", "fastify postgresql", "fastify websocket",
  "fastify socket.io", "fastify file upload", "fastify multipart",
  "fastify testing", "fastify jest", "fastify api versioning",
  "fastify security headers", "fastify helmet", "fastify performance tuning",
  "fastify production best practices", "nestjs controller", "nestjs service",
  "nestjs module", "nestjs provider", "nestjs dependency injection",
  "nestjs guard", "nestjs auth guard", "nestjs jwt authentication",
  "nestjs passport", "nestjs interceptor", "nestjs logging interceptor",
  "nestjs pipe", "nestjs validation pipe", "nestjs custom decorator",
  "nestjs exception filter", "nestjs global error handling", "nestjs middleware",
  "nestjs rate limiting", "nestjs throttler", "nestjs cors",
  "nestjs database integration", "nestjs prisma", "nestjs typeorm",
  "nestjs mongoose", "nestjs websocket gateway", "nestjs graphql",
  "nestjs rest api best practices", "nestjs testing", "nestjs e2e testing",
  "nestjs jest", "nestjs production deployment", "nestjs microservices",
  "nestjs kafka", "nestjs redis cache"]

/-- `TAGS` (tag generator). -/
def TAGS : List String :=
  ["server", "backend", "api", "http", "authentication",
  "authorization", "jwt", "sessions", "rbac", "security",
  "cors", "helmet", "csrf", "rate-limiting", "security-headers",
  "middleware", "routing", "validation", "error-handling", "database",
  "orm", "transactions", "cache", "performance", "scaling",
  "load-balancing", "caching-strategies", "websocket", "sse", "file-upload",
  "multipart", "logging", "monitoring", "metrics", "tracing",
  "testing", "unit-testing", "integration-testing", "configuration", "environment-variables",
  "deployment", "production"]

/-- `COMMON_USE_CASES` (use-case generator). -/
def COMMON_USE_CASES : List String :=
  ["authentication", "authorization", "role based access control", "permission management",
  "session management", "token management", "routing", "middleware",
  "request parsing", "response transformation", "api versioning", "validation",
  "schema validation", "input sanitization", "error handling", "global error handling",
  "cors", "csrf protection", "security headers", "rate limiting",
  "brute force protection", "logging", "structured logging", "request tracing",
  "metrics", "health checks", "database", "database migrations",
  "transactions", "caching", "cache invalidation", "websocket",
  "server sent events", "background jobs", "message queues", "file upload",
  "file validation", "image processing", "cloud storage", "compression",
  "response caching", "load balancing", "performance optimization", "unit testing",
  "integration testing", "end to end testing", "mocking", "test data seeding",
  "configuration management", "environment variables", "feature flags", "graceful shutdown",
  "production deployment"]

/-- `FRAMEWORK_PAIRS` (comparison generator). -/
def FRAMEWORK_PAIRS : List (String × String) :=
  [("express", "hono"),
   ("express", "elysia"),
   ("express", "fastify"),
   ("express", "nest"),
   ("hono", "elysia"),
   ("hono", "fastify"),
   ("hono", "nest"),
   ("elysia", "fastify"),
   ("elysia", "nest"),
   ("fastify", "nest")]

/-- One entry of `TUTORIAL_TOPICS`. -/
structure TutorialTopic where
  id : String
  title : String
  keywords : List String
deriving DecidableEq, Repr

/-- `TUTORIAL_TOPICS` (tutorial generator). -/
def TUTORIAL_TOPICS : List TutorialTopic :=
  [⟨"setup-project", "Set Up a New Project", ["setup", "init", "new project", "boilerplate"]⟩,
   ⟨"create-api", "Create a REST API", ["api", "rest", "endpoint", "route"]⟩,
   ⟨"add-authentication", "Add Authentication", ["auth", "login", "jwt", "session"]⟩,
   ⟨"add-validation", "Add Input Validation", ["validate", "schema", "input"]⟩,
   ⟨"add-error-handling", "Add Error Handling", ["error", "exception", "handle"]⟩,
   ⟨"add-logging", "Add Logging", ["log", "logger", "monitor"]⟩,
   ⟨"add-rate-limiting", "Add Rate Limiting", ["rate", "limit", "throttle"]⟩,
   ⟨"add-cors", "Configure CORS", ["cors", "cross-origin", "origin"]⟩,
   ⟨"connect-database", "Connect to Database", ["db", "database", "sql", "prisma"]⟩,
   ⟨"add-file-upload", "Handle File Uploads", ["upload", "file", "multipart"]⟩,
   ⟨"write-tests", "Write Tests", ["test", "mock", "unit"]⟩,
   ⟨"deploy-production", "Deploy to Production", ["deploy", "production", "docker", "pm2"]⟩]

/-- One entry of `PATTERNS`. -/
structure PatternDef where
  id : String
  name : String
  description : String
  keywords : List String
deriving DecidableEq, Repr

/-- `PATTERNS` (pattern generator); note the leading space in the `cqrs` id,
as in the source. -/
def PATTERNS : List PatternDef :=
  [⟨"repository-pattern", "Repository Pattern", "Decouple data access layer from business logic", ["repository", "data access", "database", "crud", "dao"]⟩,
   ⟨"factory-pattern", "Factory Pattern", "Create objects without specifying their concrete classes", ["factory", "create", "instantiate", "builder"]⟩,
   ⟨"singleton-pattern", "Singleton Pattern", "Ensure a class has only one instance", ["singleton", "single instance", "global"]⟩,
   ⟨"strategy-pattern", "Strategy Pattern", "Define a family of algorithms and make them interchangeable", ["strategy", "algorithm", "behavior", " interchangeable"]⟩,
   ⟨"observer-pattern", "Observer Pattern", "Define a one-to-many dependency between objects", ["observer", "subscribe", "publish", "event", "listener"]⟩,
   ⟨"decorator-pattern", "Decorator Pattern", "Add behavior to objects dynamically", ["decorator", "wrapper", "enhance", "compose"]⟩,
   ⟨"middleware-pattern", "Middleware Pattern", "Chain processing objects to handle requests", ["middleware", "chain", "pipeline", "filter"]⟩,
   ⟨"dependency-injection", "Dependency Injection", "Supply dependencies from external sources", ["dependency", "injection", "ioc", "container", "provider"]⟩,
   ⟨"unit-of-work", "Unit of Work", "Maintain a list of objects and coordinate writing", ["unit of work", "transaction", "atomic", "batch"]⟩,
   ⟨" cqrs", "CQRS Pattern", "Separate read and write operations", ["cqrs", "command query", "separation", "read", "write"]⟩]

/-! ## The nine page generators

Each generator is embedded at the level the claims are about: the emitted
`path` and `metadata` of every page.  The rendered HTML `content` of a page
is not modelled — no claim concerns it — and neither are the `mkdir`/
`writeFile` effects and the per-generator `BuildStats`.  `OUTPUT_DIR`
(`join(process.cwd(), "../../dist/seo")`) is an arbitrary string parameter
`outDir`.  Node's `path.join` on the segments used here is plain "/"
interposition (`pjoin`); its "." and ".." normalization and slash collapsing
never fire on the names the generators join. -/

/-- A generated page (`types.ts`; the `content` field is omitted, see
above). -/
structure GeneratedPage where
  path : String
  metadata : PageMetadata
deriving DecidableEq, Repr

/-- Node `path.join` restricted as described above. -/
def pjoin : List String → String
  | [] => ""
  | [p] => p
  | p :: rest => p ++ "/" ++ pjoin rest

/-- The metadata of a generator call site.  Only the `snippet` page type can
throw, and the snippet generator always passes `snippetData`, so every call
site is in the `.ok` case; the `.error` fallback is unreachable there. -/
def generateMetadataOk (pt : PageType) (ctx : PageContext)
    (ad : Option AdditionalData) : PageMetadata :=
  match generateMetadata pt ctx ad with
  | .ok m => m
  | .error _ => ⟨"", "", "", "", "", ""⟩

theorem generateMetadataOk_spec (pt : PageType) (ctx : PageContext)
    (ad : Option AdditionalData) (m : PageMetadata)
    (h : generateMetadata pt ctx ad = .ok m) :
    generateMetadataOk pt ctx ad = m := by
  unfold generateMetadataOk
  rw [h]

/-- `generateFrameworkPage` (framework generator): path and metadata.  (The
categories it loads feed only the page content and JSON-LD.) -/
def frameworkPage (outDir : String) (fw : Framework) : GeneratedPage :=
  { path := pjoin [outDir, "framework", fw.id ++ ".html"],
    metadata := generateMetadataOk .framework { framework := some fw.id }
      (some { frameworkDescription := some fw.description }) }

/-- `generateFrameworkPages`. -/
def generateFrameworkPages (outDir : String) (_env : ContentEnv) :
    List GeneratedPage :=
  loadAllFrameworks.map (frameworkPage outDir)

/-- `generateCategoryPage` (category generator). -/
def categoryPage (outDir : String) (fw : Framework) (cat : Category) :
    GeneratedPage :=
  { path := pjoin [outDir, "framework", fw.id, cat.id ++ ".html"],
    metadata := generateMetadataOk .category
      { framework := some fw.id, category := some cat.id }
      (some { snippetCount := some cat.snippets.length,
              topFeatures := some ((cat.snippets.take 5).map (·.displayName)) }) }

/-- `generateCategoryPages`. -/
def generateCategoryPages (outDir : String) (env : ContentEnv) :
    List GeneratedPage :=
  loadAllFrameworks.flatMap
    (fun fw => (categoriesOf env fw.id).map (categoryPage outDir fw))

/-- The three fields of a snippet record the snippet description template
reads. -/
def snippetToMeta (s : Snippet) : SnippetMeta :=
  { description := s.description, features := s.features, command := s.command }

/-- `generateSnippetPage` (snippet generator); `snippetData` is always
passed. -/
def snippetPage (outDir : String) (fw : Framework) (cat : Category)
    (s : Snippet) : GeneratedPage :=
  { path := pjoin [outDir, "snippet", fw.id, cat.id, s.id ++ ".html"],
    metadata := generateMetadataOk .snippet
      { framework := some fw.id, category := some cat.id, snippet := some s.id }
      (some { snippetData := some (snippetToMeta s) }) }

/-- `generateSnippetPages`. -/
def generateSnippetPages (outDir : String) (env : ContentEnv) :
    List GeneratedPage :=
  loadAllFrameworks.flatMap (fun fw =>
    (categoriesOf env fw.id).flatMap (fun cat =>
      cat.snippets.map (snippetPage outDir fw cat)))

/-- The snippets of a framework carrying a given use case, with their
category ids, in category/snippet order — the order in which the use-case
map collects them. -/
def useCaseSnippets (env : ContentEnv) (fwId uc : String) :
    List (Snippet × String) :=
  (categoriesOf env fwId).flatMap (fun cat =>
    (cat.snippets.filter
      (fun s => decide (uc ∈ extractUseCaseFromSnippet s))).map
      (fun s => (s, cat.id)))

/-- `generateUseCasePage` (use-case generator). -/
def useCasePage (outDir : String) (uc : String) (fw : Framework)
    (snips : List (Snippet × String)) : GeneratedPage :=
  { path := pjoin [outDir, "use-case", fw.id, slugify uc ++ ".html"],
    metadata := generateMetadataOk .useCase
      { useCase := some (slugify uc), framework := some fw.id }
      (some { snippetCount := some snips.length }) }

/-- `generateUseCasePages`: the source groups snippets into a
`Map<useCase, Map<frameworkId, list>>` by iterating frameworks, categories
and snippets in order, then iterates `COMMON_USE_CASES` and, per use case,
the inner map's entries.  A JS `Map` iterates keys in insertion order; keys
of the inner map are first inserted while walking the fixed framework list,
so its key order is the framework-list order restricted to frameworks with
at least one snippet for that use case, and each collected list follows
category/snippet order — the grouping is therefore embedded as
filter/flatMap. -/
def generateUseCasePages (outDir : String) (env : ContentEnv) :
    List GeneratedPage :=
  COMMON_USE_CASES.flatMap (fun uc =>
    (loadAllFrameworks.filter
      (fun fw => !(useCaseSnippets env fw.id uc).isEmpty)).map
      (fun fw => useCasePage outDir uc fw (useCaseSnippets env fw.id uc)))

/-- `getFrameworkInfo` (comparison generator). -/
def getFrameworkInfo (frameworks : List Framework) (id : String) :
    Option Framework :=
  frameworks.find? (fun f => f.id == id)

/-- `generateComparisonPage` (comparison generator): `null` when either
framework id is unknown; the loaded categories and their common-snippet
diffs feed only the page content. -/
def comparisonPage (outDir : String) (fw1Id fw2Id : String)
    (frameworks : List Framework) : Option GeneratedPage :=
  match getFrameworkInfo frameworks fw1Id, getFrameworkInfo frameworks fw2Id with
  | some fw1, some fw2 =>
    some { path := pjoin [outDir, "compare",
             slugify (fw1.name ++ "-vs-" ++ fw2.name) ++ ".html"],
           metadata := generateMetadataOk .framework
             { framework := some (slugify (fw1.name ++ "-vs-" ++ fw2.name)) }
             (some { frameworkDescription :=
                       some (fw1.name ++ " vs " ++ fw2.name ++ " comparison") }) }
  | _, _ => none

/-- `generateComparisonPages`. -/
def generateComparisonPages (outDir : String) (_env : ContentEnv) :
    List GeneratedPage :=
  FRAMEWORK_PAIRS.flatMap
    (fun p => (comparisonPage outDir p.1 p.2 loadAllFrameworks).toList)

/-- `findRelatedSnippets` (tutorial generator): keyword OR-matching over the
same searchable text as the search scorer. -/
def findRelatedSnippets (snippets : List Snippet) (keywords : List String) :
    List Snippet :=
  snippets.filter
    (fun s => keywords.any (fun kw => jsIncludes (searchText s) (sLower kw)))

/-- `generateTutorialPage` (tutorial generator). -/
def tutorialPage (outDir : String) (topic : TutorialTopic) (fw : Framework)
    (relatedCount : Nat) : GeneratedPage :=
  { path := pjoin [outDir, "guide", slugify (fw.id ++ "-" ++ topic.id) ++ ".html"],
    metadata := generateMetadataOk .guide
      { guide := some (slugify (fw.id ++ "-" ++ topic.id)),
        framework := some fw.id }
      (some { tutorialTopic := some topic.title,
              snippetCount := some relatedCount }) }

/-- `generateTutorialPages`. -/
def generateTutorialPages (outDir : String) (env : ContentEnv) :
    List GeneratedPage :=
  loadAllFrameworks.flatMap (fun fw =>
    TUTORIAL_TOPICS.map (fun topic =>
      tutorialPage outDir topic fw
        (findRelatedSnippets ((categoriesOf env fw.id).flatMap (·.snippets))
          topic.keywords).length))

/-- The snippets of a framework carrying a given tag (tag generator). -/
def taggedSnippetCount (env : ContentEnv) (fwId tag : String) : Nat :=
  (((categoriesOf env fwId).flatMap (·.snippets)).filter
    (fun s => decide (tag ∈ extractTags s))).length

/-- `generateTagPage` (tag generator). -/
def tagPage (outDir : String) (tag : String) (fw : Framework) (count : Nat) :
    GeneratedPage :=
  { path := pjoin [outDir, "tag", fw.id, slugify tag ++ ".html"],
    metadata := generateMetadataOk .tag
      { tag := some (slugify tag), framework := some fw.id }
      (some { tagName := some tag, snippetCount := some count }) }

/-- `generateTagPages`. -/
def generateTagPages (outDir : String) (env : ContentEnv) :
    List GeneratedPage :=
  loadAllFrameworks.flatMap (fun fw =>
    TAGS.map (fun tag => tagPage outDir tag fw (taggedSnippetCount env fw.id tag)))

/-- The total number of matches a search page reports (search generator:
`allResults.length`). -/
def searchResultCount (env : ContentEnv) (query : String) : Nat :=
  (loadAllFrameworks.flatMap (fun fw =>
    (categoriesOf env fw.id).flatMap (fun cat =>
      findMatchingSnippets cat.snippets query))).length

/-- `generateSearchPage` (search generator). -/
def searchPage (outDir : String) (env : ContentEnv) (query : String) :
    GeneratedPage :=
  { path := pjoin [outDir, "search", slugify query ++ ".html"],
    metadata := generateMetadataOk .search
      { query := some (slugify query) }
      (some { searchQuery := some query,
              resultCount := some (searchResultCount env query) }) }

/-- `generateSearchPages`. -/
def generateSearchPages (outDir : String) (env : ContentEnv) :
    List GeneratedPage :=
  SEARCH_QUERIES.map (searchPage outDir env)

/-- `findPatternSnippets` (pattern generator): +3 per matching keyword,
positive scores only, stable-sorted descending. -/
def findPatternSnippets (snippets : List Snippet) (keywords : List String) :
    List (Snippet × Nat) :=
  ((snippets.map (fun s =>
      (s, keywords.foldl
        (fun sc kw => if jsIncludes (searchText s) (sLower kw) then sc + 3
          else sc) 0))).filter
    (fun r => decide (0 < r.2))).mergeSort (fun a b => decide (b.2 ≤ a.2))

/-- `generatePatternPage` (pattern generator). -/
def patternPage (outDir : String) (pat : PatternDef) (fw : Framework)
    (count : Nat) : GeneratedPage :=
  { path := pjoin [outDir, "pattern", slugify (fw.id ++ "-" ++ pat.id) ++ ".html"],
    metadata := generateMetadataOk .pattern
      { pattern := some (slugify (fw.id ++ "-" ++ pat.id)),
        framework := some fw.id }
      (some { patternName := some pat.name, snippetCount := some count }) }

/-- `generatePatternPages`. -/
def generatePatternPages (outDir : String) (env : ContentEnv) :
    List GeneratedPage :=
  loadAllFrameworks.flatMap (fun fw =>
    PATTERNS.map (fun pat =>
      patternPage outDir pat fw
        (findPatternSnippets ((categoriesOf env fw.id).flatMap (·.snippets))
          pat.keywords).length))

/-! ## The build orchestrator (`index.ts`) -/

/-- `build`: all pages of the nine generators, concatenated in invocation
order. -/
def allPages (outDir : String) (env : ContentEnv) : List GeneratedPage :=
  generateFrameworkPages outDir env ++ generateCategoryPages outDir env ++
    generateSnippetPages outDir env ++ generateUseCasePages outDir env ++
    generateComparisonPages outDir env ++ generateTutorialPages outDir env ++
    generateTagPages outDir env ++ generateSearchPages outDir env ++
    generatePatternPages outDir env

/-- One sitemap `<url>` entry. -/
structure SitemapEntry where
  url : String
  lastmod : String
  changefreq : String
  priority : ℚ
deriving DecidableEq, Repr

/-- `generateSitemap`: one entry per page, `loc = SITE_URL + page.path`,
`lastmod` the build date, constant weekly change frequency, priority 1.0 for
the root path and 0.8 otherwise. -/
def sitemapEntries (buildDate : String) (pages : List GeneratedPage) :
    List SitemapEntry :=
  pages.map (fun page =>
    { url := SITE_URL ++ page.path,
      lastmod := buildDate,
      changefreq := "weekly",
      priority := if page.path = "/" then 1 else 4/5 })

/-! ## String and list infrastructure for the path claims -/

theorem str_ext {a b : String} (h : a.data = b.data) : a = b := by
  cases a; cases b; cases h; rfl

theorem sapp_left_cancel {a b c : String} (h : a ++ b = a ++ c) : b = c := by
  apply str_ext
  have := congrArg String.data h
  rw [data_append, data_append] at this
  exact List.append_cancel_left this

theorem sapp_right_cancel {a b c : String} (h : a ++ c = b ++ c) : a = b := by
  apply str_ext
  have := congrArg String.data h
  rw [data_append, data_append] at this
  exact List.append_cancel_right this

theorem append_left_injective (a : String) :
    Function.Injective (fun s => a ++ s) := fun _ _ h => sapp_left_cancel h

theorem wrap_injective (a b : String) :
    Function.Injective (fun s => a ++ (s ++ b)) := by
  intro x y h
  have h1 := sapp_left_cancel h
  exact sapp_right_cancel h1

/-- Neither character list is a front of the other. -/
def pfxFree (a b : List Char) : Bool := !(leadMatch a b) && !(leadMatch b a)

theorem append_ne_of_pfxFree : ∀ {a b : List Char}, pfxFree a b = true →
    ∀ x y, a ++ x ≠ b ++ y := by
  intro a
  induction a with
  | nil =>
    intro b h
    simp [pfxFree, leadMatch] at h
  | cons c cs ih =>
    intro b h x y
    cases b with
    | nil => simp [pfxFree, leadMatch] at h
    | cons d ds =>
      simp only [pfxFree, leadMatch, Bool.not_eq_true', Bool.and_eq_true,
        Bool.and_eq_false_iff] at h
      by_cases hcd : c = d
      · subst hcd
        have h' : pfxFree cs ds = true := by
          simp only [pfxFree, Bool.and_eq_true, Bool.not_eq_true']
          rcases h.1 with h1 | h1
          · simp at h1
          · rcases h.2 with h2 | h2
            · simp at h2
            · exact ⟨h1, h2⟩
        intro heq
        simp only [List.cons_append, List.cons.injEq] at heq
        exact ih h' x y heq.2
      · intro heq
        simp only [List.cons_append, List.cons.injEq] at heq
        exact hcd heq.1

/-- Cutting two concatenations at a separator character that occurs in
neither left part. -/
theorem sep_inj {c : Char} : ∀ {x y r s : List Char}, c ∉ x → c ∉ y →
    x ++ c :: r = y ++ c :: s → x = y ∧ r = s := by
  intro x
  induction x with
  | nil =>
    intro y r s _ hy h
    cases y with
    | nil => simpa using h
    | cons d ds =>
      simp only [List.nil_append, List.cons_append, List.cons.injEq] at h
      exact absurd (h.1 ▸ List.mem_cons_self d ds) hy
  | cons a as ih =>
    intro y r s hx hy h
    cases y with
    | nil =>
      simp only [List.cons_append, List.nil_append, List.cons.injEq] at h
      exact absurd (h.1.symm ▸ List.mem_cons_self a as) hx
    | cons d ds =>
      simp only [List.cons_append, List.cons.injEq] at h
      obtain ⟨rfl, h2⟩ := h
      have := ih (fun hc => hx (List.mem_cons_of_mem _ hc))
        (fun hc => hy (List.mem_cons_of_mem _ hc)) h2
      exact ⟨by rw [this.1], this.2⟩

/-- Efficient duplicate check used to certify `Nodup` on literal string
lists. -/
def nodupSB : List String → Bool
  | [] => true
  | a :: as => !(as.contains a) && nodupSB as

theorem nodupSB_nodup : ∀ l : List String, nodupSB l = true → l.Nodup := by
  intro l
  induction l with
  | nil => intro _; exact List.nodup_nil
  | cons a as ih =>
    intro h
    simp only [nodupSB, Bool.and_eq_true, Bool.not_eq_true'] at h
    refine List.nodup_cons.mpr ⟨?_, ih h.2⟩
    intro hmem
    have : as.contains a = true := List.elem_iff.mpr hmem
    rw [this] at h
    exact Bool.true_eq_false.mp h.1

/-- Pairwise disjointness of the per-key groups of a `flatMap`, from
distinctness of the keys. -/
theorem pairwise_disjoint_of_key {α : Type} (l : List α) (key : α → String)
    (f : α → List String) (hkey : (l.map key).Nodup)
    (hdisj : ∀ a ∈ l, ∀ b ∈ l, key a ≠ key b → (f a).Disjoint (f b)) :
    l.Pairwise (List.Disjoint on f) := by
  have h := List.pairwise_map.mp hkey
  exact h.imp_of_mem (fun ha hb hne => hdisj _ ha _ hb hne)

theorem flatMap_sublist {α β : Type} (f g : α → List β)
    (h : ∀ a, (f a).Sublist (g a)) :
    ∀ l : List α, (l.flatMap f).Sublist (l.flatMap g) := by
  intro l
  induction l with
  | nil => simp
  | cons a as ih =>
    simp only [List.flatMap_cons]
    exact (h a).append ih

/-- JS `String.prototype.endsWith`. -/
def sEndsWith (s t : String) : Bool := leadMatch t.data.reverse s.data.reverse

theorem sEndsWith_append (x t : String) : sEndsWith (x ++ t) t = true := by
  unfold sEndsWith
  rw [data_append, List.reverse_append]
  exact leadMatch_append _ _

/-- Members of two string lists whose elements start with incompatible
literal heads never coincide. -/
theorem disjoint_of_shapes {l₁ l₂ : List String} {P Q : String}
    (h₁ : ∀ s ∈ l₁, ∃ r, s = P ++ r) (h₂ : ∀ s ∈ l₂, ∃ r, s = Q ++ r)
    (hpf : pfxFree P.data Q.data = true) : l₁.Disjoint l₂ := by
  intro s hs₁ hs₂
  obtain ⟨r₁, rfl⟩ := h₁ s hs₁
  obtain ⟨r₂, he⟩ := h₂ _ hs₂
  have := congrArg String.data he
  rw [data_append, data_append] at this
  exact append_ne_of_pfxFree hpf _ _ this

/-! ## The path suffixes of each generator

Every generated path is `outDir ++ "/" ++ s` for a suffix `s` below; the nine
suffix lists mirror the nine generators. -/

def frameworkSufs : List String :=
  loadAllFrameworks.map (fun fw => "framework" ++ "/" ++ (fw.id ++ ".html"))

def categorySufs (env : ContentEnv) : List String :=
  loadAllFrameworks.flatMap (fun fw =>
    (categoriesOf env fw.id).map (fun cat =>
      "framework" ++ "/" ++ (fw.id ++ "/" ++ (cat.id ++ ".html"))))

def snippetSufs (env : ContentEnv) : List String :=
  loadAllFrameworks.flatMap (fun fw =>
    (categoriesOf env fw.id).flatMap (fun cat =>
      cat.snippets.map (fun s =>
        "snippet" ++ "/" ++ (fw.id ++ "/" ++ (cat.id ++ "/" ++ (s.id ++ ".html"))))))

def useCaseSufs (env : ContentEnv) : List String :=
  COMMON_USE_CASES.flatMap (fun uc =>
    (loadAllFrameworks.filter
      (fun fw => !(useCaseSnippets env fw.id uc).isEmpty)).map (fun fw =>
        "use-case" ++ "/" ++ (fw.id ++ "/" ++ (slugify uc ++ ".html"))))

def comparisonSufs : List String :=
  FRAMEWORK_PAIRS.flatMap (fun p =>
    match getFrameworkInfo loadAllFrameworks p.1,
        getFrameworkInfo loadAllFrameworks p.2 with
    | some fw1, some fw2 =>
      ["compare" ++ "/" ++ (slugify (fw1.name ++ "-vs-" ++ fw2.name) ++ ".html")]
    | _, _ => [])

def guideSufs : List String :=
  loadAllFrameworks.flatMap (fun fw =>
    TUTORIAL_TOPICS.map (fun t =>
      "guide" ++ "/" ++ (slugify (fw.id ++ "-" ++ t.id) ++ ".html")))

def tagSufs : List String :=
  loadAllFrameworks.flatMap (fun fw =>
    TAGS.map (fun tag =>
      "tag" ++ "/" ++ (fw.id ++ "/" ++ (slugify tag ++ ".html"))))

def searchSufs : List String :=
  SEARCH_QUERIES.map (fun q => "search" ++ "/" ++ (slugify q ++ ".html"))

def patternSufs : List String :=
  loadAllFrameworks.flatMap (fun fw =>
    PATTERNS.map (fun pat =>
      "pattern" ++ "/" ++ (slugify (fw.id ++ "-" ++ pat.id) ++ ".html")))

/-- All path suffixes, in build order. -/
def allSufs (env : ContentEnv) : List String :=
  frameworkSufs ++ (categorySufs env ++ (snippetSufs env ++ (useCaseSufs env ++
    (comparisonSufs ++ (guideSufs ++ (tagSufs ++ (searchSufs ++ patternSufs)))))))

theorem map_path_frameworkPages (outDir : String) (env : ContentEnv) :
    (generateFrameworkPages outDir env).map GeneratedPage.path =
      frameworkSufs.map (fun s => outDir ++ "/" ++ s) := by
  simp only [generateFrameworkPages, frameworkSufs, List.map_map]
  rfl

theorem map_path_categoryPages (outDir : String) (env : ContentEnv) :
    (generateCategoryPages outDir env).map GeneratedPage.path =
      (categorySufs env).map (fun s => outDir ++ "/" ++ s) := by
  simp only [generateCategoryPages, categorySufs, List.map_flatMap, List.map_map]
  rfl

theorem map_path_snippetPages (outDir : String) (env : ContentEnv) :
    (generateSnippetPages outDir env).map GeneratedPage.path =
      (snippetSufs env).map (fun s => outDir ++ "/" ++ s) := by
  simp only [generateSnippetPages, snippetSufs, List.map_flatMap, List.map_map]
  rfl

theorem map_path_useCasePages (outDir : String) (env : ContentEnv) :
    (generateUseCasePages outDir env).map GeneratedPage.path =
      (useCaseSufs env).map (fun s => outDir ++ "/" ++ s) := by
  simp only [generateUseCasePages, useCaseSufs, List.map_flatMap, List.map_map]
  rfl

theorem map_path_comparisonPages (outDir : String) (env : ContentEnv) :
    (generateComparisonPages outDir env).map GeneratedPage.path =
      comparisonSufs.map (fun s => outDir ++ "/" ++ s) := by
  rfl

theorem map_path_tutorialPages (outDir : String) (env : ContentEnv) :
    (generateTutorialPages outDir env).map GeneratedPage.path =
      guideSufs.map (fun s => outDir ++ "/" ++ s) := by
  simp only [generateTutorialPages, guideSufs, List.map_flatMap, List.map_map]
  rfl

theorem map_path_tagPages (outDir : String) (env : ContentEnv) :
    (generateTagPages outDir env).map GeneratedPage.path =
      tagSufs.map (fun s => outDir ++ "/" ++ s) := by
  simp only [generateTagPages, tagSufs, List.map_flatMap, List.map_map]
  rfl

theorem map_path_searchPages (outDir : String) (env : ContentEnv) :
    (generateSearchPages outDir env).map GeneratedPage.path =
      searchSufs.map (fun s => outDir ++ "/" ++ s) := by
  simp only [generateSearchPages, searchSufs, List.map_map]
  rfl

theorem map_path_patternPages (outDir : String) (env : ContentEnv) :
    (generatePatternPages outDir env).map GeneratedPage.path =
      patternSufs.map (fun s => outDir ++ "/" ++ s) := by
  simp only [generatePatternPages, patternSufs, List.map_flatMap, List.map_map]
  rfl

theorem map_path_allPages (outDir : String) (env : ContentEnv) :
    (allPages outDir env).map GeneratedPage.path =
      (allSufs env).map (fun s => outDir ++ "/" ++ s) := by
  unfold allPages allSufs
  simp only [List.map_append, List.append_assoc]
  rw [map_path_frameworkPages, map_path_categoryPages, map_path_snippetPages,
    map_path_useCasePages, map_path_comparisonPages, map_path_tutorialPages,
    map_path_tagPages, map_path_searchPages, map_path_patternPages]

/-! ## Shapes of the path suffixes -/

theorem data_seg (a x : String) : (a ++ "/" ++ x).data = a.data ++ '/' :: x.data := by
  rw [data_append, data_append]
  simp [List.append_assoc]

theorem slash_mem (a x : String) : '/' ∈ (a ++ "/" ++ x).data := by
  rw [data_seg]
  simp

theorem shape_weak {l : List String} {P : String}
    (h : ∀ s ∈ l, ∃ r, s = P ++ (r ++ ".html")) : ∀ s ∈ l, ∃ r, s = P ++ r :=
  fun s hs => (h s hs).elim (fun r hr => ⟨r ++ ".html", hr⟩)

theorem frameworkSufs_shape :
    ∀ s ∈ frameworkSufs, ∃ r, s = ("framework" ++ "/") ++ (r ++ ".html") := by
  intro s hs
  obtain ⟨fw, _, rfl⟩ := List.mem_map.mp hs
  exact ⟨fw.id, rfl⟩

theorem categorySufs_shape (env : ContentEnv) :
    ∀ s ∈ categorySufs env, ∃ r, s = ("framework" ++ "/") ++ (r ++ ".html") := by
  intro s hs
  obtain ⟨fw, _, hmem⟩ := List.mem_flatMap.mp hs
  obtain ⟨cat, _, rfl⟩ := List.mem_map.mp hmem
  exact ⟨fw.id ++ "/" ++ cat.id, by simp [String.append_assoc]⟩

theorem snippetSufs_shape (env : ContentEnv) :
    ∀ s ∈ snippetSufs env, ∃ r, s = ("snippet" ++ "/") ++ (r ++ ".html") := by
  intro s hs
  obtain ⟨fw, _, hmem⟩ := List.mem_flatMap.mp hs
  obtain ⟨cat, _, hmem2⟩ := List.mem_flatMap.mp hmem
  obtain ⟨sn, _, rfl⟩ := List.mem_map.mp hmem2
  exact ⟨fw.id ++ "/" ++ cat.id ++ "/" ++ sn.id, by simp [String.append_assoc]⟩

theorem useCaseSufs_shape (env : ContentEnv) :
    ∀ s ∈ useCaseSufs env, ∃ r, s = ("use-case" ++ "/") ++ (r ++ ".html") := by
  intro s hs
  obtain ⟨uc, _, hmem⟩ := List.mem_flatMap.mp hs
  obtain ⟨fw, _, rfl⟩ := List.mem_map.mp hmem
  exact ⟨fw.id ++ "/" ++ slugify uc, by simp [String.append_assoc]⟩

theorem comparisonSufs_shape :
    ∀ s ∈ comparisonSufs, ∃ r, s = ("compare" ++ "/") ++ (r ++ ".html") := by
  intro s hs
  obtain ⟨p, _, hmem⟩ := List.mem_flatMap.mp hs
  cases h1 : getFrameworkInfo loadAllFrameworks p.1 with
  | none => rw [h1] at hmem; simp at hmem
  | some fw1 =>
    cases h2 : getFrameworkInfo loadAllFrameworks p.2 with
    | none => rw [h1, h2] at hmem; simp at hmem
    | some fw2 =>
      rw [h1, h2] at hmem
      simp only [List.mem_singleton] at hmem
      exact ⟨slugify (fw1.name ++ "-vs-" ++ fw2.name), hmem⟩

theorem guideSufs_shape :
    ∀ s ∈ guideSufs, ∃ r, s = ("guide" ++ "/") ++ (r ++ ".html") := by
  intro s hs
  obtain ⟨fw, _, hmem⟩ := List.mem_flatMap.mp hs
  obtain ⟨t, _, rfl⟩ := List.mem_map.mp hmem
  exact ⟨slugify (fw.id ++ "-" ++ t.id), rfl⟩

theorem tagSufs_shape :
    ∀ s ∈ tagSufs, ∃ r, s = ("tag" ++ "/") ++ (r ++ ".html") := by
  intro s hs
  obtain ⟨fw, _, hmem⟩ := List.mem_flatMap.mp hs
  obtain ⟨tag, _, rfl⟩ := List.mem_map.mp hmem
  exact ⟨fw.id ++ "/" ++ slugify tag, by simp [String.append_assoc]⟩

theorem searchSufs_shape :
    ∀ s ∈ searchSufs, ∃ r, s = ("search" ++ "/") ++ (r ++ ".html") := by
  intro s hs
  obtain ⟨q, _, rfl⟩ := List.mem_map.mp hs
  exact ⟨slugify q, rfl⟩

theorem patternSufs_shape :
    ∀ s ∈ patternSufs, ∃ r, s = ("pattern" ++ "/") ++ (r ++ ".html") := by
  intro s hs
  obtain ⟨fw, _, hmem⟩ := List.mem_flatMap.mp hs
  obtain ⟨pat, _, rfl⟩ := List.mem_map.mp hmem
  exact ⟨slugify (fw.id ++ "-" ++ pat.id), rfl⟩

/-! ## Cleanliness of the fixed framework ids -/

theorem frameworks_id_clean : ∀ fw ∈ loadAllFrameworks, '/' ∉ fw.id.data := by
  decide

theorem frameworks_idhtml_clean :
    ∀ fw ∈ loadAllFrameworks, '/' ∉ (fw.id ++ ".html").data := by
  decide

theorem frameworks_ids_nodup : (loadAllFrameworks.map Framework.id).Nodup := by
  decide

theorem nodup_map_of_key {α : Type} (l : List α) (key : α → String)
    (f : α → String) (hkey : (l.map key).Nodup)
    (hinj : ∀ a ∈ l, ∀ b ∈ l, key a ≠ key b → f a ≠ f b) :
    (l.map f).Nodup := by
  have h := List.pairwise_map.mp hkey
  have h2 : List.Pairwise (fun a b => f a ≠ f b) l :=
    h.imp_of_mem (fun ha hb hne => hinj _ ha _ hb hne)
  exact List.pairwise_map.mpr h2

/-! ## Literal slug lists (certificates for the uniqueness proofs) -/

def tagSlugsL : List String :=
  ["server", "backend", "api", "http",
  "authentication", "authorization", "jwt", "sessions",
  "rbac", "security", "cors", "helmet",
  "csrf", "rate-limiting", "security-headers", "middleware",
  "routing", "validation", "error-handling", "database",
  "orm", "transactions", "cache", "performance",
  "scaling", "load-balancing", "caching-strategies", "websocket",
  "sse", "file-upload", "multipart", "logging",
  "monitoring", "metrics", "tracing", "testing",
  "unit-testing", "integration-testing", "configuration", "environment-variables",
  "deployment", "production"]

def ucSlugsL : List String :=
  ["authentication", "authorization", "role-based-access-control", "permission-management",
  "session-management", "token-management", "routing", "middleware",
  "request-parsing", "response-transformation", "api-versioning", "validation",
  "schema-validation", "input-sanitization", "error-handling", "global-error-handling",
  "cors", "csrf-protection", "security-headers", "rate-limiting",
  "brute-force-protection", "logging", "structured-logging", "request-tracing",
  "metrics", "health-checks", "database", "database-migrations",
  "transactions", "caching", "cache-invalidation", "websocket",
  "server-sent-events", "background-jobs", "message-queues", "file-upload",
  "file-validation", "image-processing", "cloud-storage", "compression",
  "response-caching", "load-balancing", "performance-optimization", "unit-testing",
  "integration-testing", "end-to-end-testing", "mocking", "test-data-seeding",
  "configuration-management", "environment-variables", "feature-flags", "graceful-shutdown",
  "production-deployment"]

def sqSlugsL : List String :=
  ["express-js-middleware-example", "express-js-custom-middleware", "express-js-error-handling",
  "express-js-async-error-handler", "express-js-validation", "express-js-request-validation",
  "express-js-jwt-authentication", "express-js-oauth-authentication", "express-js-session-management",
  "express-js-cors", "express-js-rate-limiting", "express-js-logging",
  "express-js-morgan-logging", "express-js-database-connection", "express-js-mongodb-integration",
  "express-js-postgresql-integration", "express-js-prisma-example", "express-js-sequelize-example",
  "express-js-file-upload", "express-js-multer-example", "express-js-image-upload",
  "express-js-websocket", "express-js-socket-io", "express-js-api-versioning",
  "express-js-health-check", "express-js-security-best-practices", "express-js-helmet",
  "express-js-csrf-protection", "express-js-unit-testing", "express-js-jest-testing",
  "express-js-supertest-example", "express-js-production-setup", "hono-js-middleware",
  "hono-js-custom-middleware", "hono-js-authentication", "hono-js-jwt-authentication",
  "hono-js-oauth", "hono-js-cors", "hono-js-rate-limiter",
  "hono-js-logging", "hono-js-error-handling", "hono-js-global-error-handler",
  "hono-js-validation", "hono-js-zod-validation", "hono-js-database",
  "hono-js-drizzle-orm", "hono-js-prisma", "hono-js-cloudflare-workers",
  "hono-js-bun-runtime", "hono-js-deno-runtime", "hono-js-file-upload",
  "hono-js-multipart-form", "hono-js-testing", "hono-js-unit-tests",
  "hono-js-api-versioning", "hono-js-security-headers", "hono-js-performance",
  "hono-js-edge-functions", "elysia-js-getting-started", "elysia-js-middleware",
  "elysia-js-plugin-example", "elysia-js-jwt", "elysia-js-authentication",
  "elysia-js-validation", "elysia-js-typebox-validation", "elysia-js-error-handler",
  "elysia-js-global-error-handling", "elysia-js-cors", "elysia-js-security-headers",
  "elysia-js-rate-limiting", "elysia-js-logging", "elysia-js-request-lifecycle",
  "elysia-js-database-integration", "elysia-js-prisma", "elysia-js-drizzle-orm",
  "elysia-js-websocket", "elysia-js-real-time", "elysia-js-file-upload",
  "elysia-js-testing", "elysia-js-bun-performance", "elysia-js-production-deployment",
  "fastify-getting-started", "fastify-middleware", "fastify-hooks",
  "fastify-authentication", "fastify-jwt", "fastify-oauth",
  "fastify-rate-limiting", "fastify-validation", "fastify-schema-validation",
  "fastify-error-handling", "fastify-custom-error-handler", "fastify-logging",
  "fastify-pino-logging", "fastify-database-integration", "fastify-prisma",
  "fastify-mongodb", "fastify-postgresql", "fastify-websocket",
  "fastify-socket-io", "fastify-file-upload", "fastify-multipart",
  "fastify-testing", "fastify-jest", "fastify-api-versioning",
  "fastify-security-headers", "fastify-helmet", "fastify-performance-tuning",
  "fastify-production-best-practices", "nestjs-controller", "nestjs-service",
  "nestjs-module", "nestjs-provider", "nestjs-dependency-injection",
  "nestjs-guard", "nestjs-auth-guard", "nestjs-jwt-authentication",
  "nestjs-passport", "nestjs-interceptor", "nestjs-logging-interceptor",
  "nestjs-pipe", "nestjs-validation-pipe", "nestjs-custom-decorator",
  "nestjs-exception-filter", "nestjs-global-error-handling", "nestjs-middleware",
  "nestjs-rate-limiting", "nestjs-throttler", "nestjs-cors",
  "nestjs-database-integration", "nestjs-prisma", "nestjs-typeorm",
  "nestjs-mongoose", "nestjs-websocket-gateway", "nestjs-graphql",
  "nestjs-rest-api-best-practices", "nestjs-testing", "nestjs-e2e-testing",
  "nestjs-jest", "nestjs-production-deployment", "nestjs-microservices",
  "nestjs-kafka", "nestjs-redis-cache"]

def guideSlugsL : List String :=
  ["express-setup-project", "express-create-api", "express-add-authentication",
  "express-add-validation", "express-add-error-handling", "express-add-logging",
  "express-add-rate-limiting", "express-add-cors", "express-connect-database",
  "express-add-file-upload", "express-write-tests", "express-deploy-production",
  "hono-setup-project", "hono-create-api", "hono-add-authentication",
  "hono-add-validation", "hono-add-error-handling", "hono-add-logging",
  "hono-add-rate-limiting", "hono-add-cors", "hono-connect-database",
  "hono-add-file-upload", "hono-write-tests", "hono-deploy-production",
  "elysia-setup-project", "elysia-create-api", "elysia-add-authentication",
  "elysia-add-validation", "elysia-add-error-handling", "elysia-add-logging",
  "elysia-add-rate-limiting", "elysia-add-cors", "elysia-connect-database",
  "elysia-add-file-upload", "elysia-write-tests", "elysia-deploy-production",
  "fastify-setup-project", "fastify-create-api", "fastify-add-authentication",
  "fastify-add-validation", "fastify-add-error-handling", "fastify-add-logging",
  "fastify-add-rate-limiting", "fastify-add-cors", "fastify-connect-database",
  "fastify-add-file-upload", "fastify-write-tests", "fastify-deploy-production",
  "nest-setup-project", "nest-create-api", "nest-add-authentication",
  "nest-add-validation", "nest-add-error-handling", "nest-add-logging",
  "nest-add-rate-limiting", "nest-add-cors", "nest-connect-database",
  "nest-add-file-upload", "nest-write-tests", "nest-deploy-production"]

def patternSlugsL : List String :=
  ["express-repository-pattern", "express-factory-pattern", "express-singleton-pattern",
  "express-strategy-pattern", "express-observer-pattern", "express-decorator-pattern",
  "express-middleware-pattern", "express-dependency-injection", "express-unit-of-work",
  "express-cqrs", "hono-repository-pattern", "hono-factory-pattern",
  "hono-singleton-pattern", "hono-strategy-pattern", "hono-observer-pattern",
  "hono-decorator-pattern", "hono-middleware-pattern", "hono-dependency-injection",
  "hono-unit-of-work", "hono-cqrs", "elysia-repository-pattern",
  "elysia-factory-pattern", "elysia-singleton-pattern", "elysia-strategy-pattern",
  "elysia-observer-pattern", "elysia-decorator-pattern", "elysia-middleware-pattern",
  "elysia-dependency-injection", "elysia-unit-of-work", "elysia-cqrs",
  "fastify-repository-pattern", "fastify-factory-pattern", "fastify-singleton-pattern",
  "fastify-strategy-pattern", "fastify-observer-pattern", "fastify-decorator-pattern",
  "fastify-middleware-pattern", "fastify-dependency-injection", "fastify-unit-of-work",
  "fastify-cqrs", "nest-repository-pattern", "nest-factory-pattern",
  "nest-singleton-pattern", "nest-strategy-pattern", "nest-observer-pattern",
  "nest-decorator-pattern", "nest-middleware-pattern", "nest-dependency-injection",
  "nest-unit-of-work", "nest-cqrs"]

set_option maxRecDepth 100000 in
theorem tagSlugs_lit : TAGS.map slugify = tagSlugsL := by decide

theorem tagSlugs_nodup : (TAGS.map slugify).Nodup := by
  rw [tagSlugs_lit]
  exact nodupSB_nodup _ (by decide)

set_option maxRecDepth 100000 in
theorem ucSlugs_lit : COMMON_USE_CASES.map slugify = ucSlugsL := by decide

theorem ucSlugs_nodup : (COMMON_USE_CASES.map slugify).Nodup := by
  rw [ucSlugs_lit]
  exact nodupSB_nodup _ (by decide)

set_option maxRecDepth 100000 in
theorem sqSlugs_lit : SEARCH_QUERIES.map slugify = sqSlugsL := by decide

set_option maxRecDepth 100000 in
set_option maxHeartbeats 2000000 in
theorem sqSlugs_nodup : (SEARCH_QUERIES.map slugify).Nodup := by
  rw [sqSlugs_lit]
  exact nodupSB_nodup _ (by decide)

set_option maxRecDepth 100000 in
theorem guideSlugs_lit :
    loadAllFrameworks.flatMap (fun fw =>
      TUTORIAL_TOPICS.map (fun t => slugify (fw.id ++ "-" ++ t.id))) =
      guideSlugsL := by decide

theorem guideSlugs_nodup :
    (loadAllFrameworks.flatMap (fun fw =>
      TUTORIAL_TOPICS.map (fun t => slugify (fw.id ++ "-" ++ t.id)))).Nodup := by
  rw [guideSlugs_lit]
  exact nodupSB_nodup _ (by decide)

set_option maxRecDepth 100000 in
theorem patternSlugs_lit :
    loadAllFrameworks.flatMap (fun fw =>
      PATTERNS.map (fun pat => slugify (fw.id ++ "-" ++ pat.id))) =
      patternSlugsL := by decide

theorem patternSlugs_nodup :
    (loadAllFrameworks.flatMap (fun fw =>
      PATTERNS.map (fun pat => slugify (fw.id ++ "-" ++ pat.id)))).Nodup := by
  rw [patternSlugs_lit]
  exact nodupSB_nodup _ (by decide)

/-! ## Internal uniqueness of each generator's paths -/

theorem frameworkSufs_nodup : frameworkSufs.Nodup := by decide

theorem categorySufs_nodup (env : ContentEnv)
    (hN : ∀ fw ∈ loadAllFrameworks,
      ((categoriesOf env fw.id).map Category.id).Nodup) :
    (categorySufs env).Nodup := by
  unfold categorySufs
  rw [List.nodup_flatMap]
  constructor
  · intro fw hfw
    have he : (categoriesOf env fw.id).map (fun cat =>
        "framework" ++ "/" ++ (fw.id ++ "/" ++ (cat.id ++ ".html"))) =
        ((categoriesOf env fw.id).map Category.id).map (fun cid =>
          "framework" ++ "/" ++ (fw.id ++ "/" ++ (cid ++ ".html"))) := by
      rw [List.map_map]
      rfl
    rw [he]
    refine List.Nodup.map ?_ (hN fw hfw)
    intro x y h
    exact sapp_right_cancel (sapp_left_cancel (sapp_left_cancel h))
  · refine pairwise_disjoint_of_key loadAllFrameworks Framework.id _
      frameworks_ids_nodup ?_
    intro fw1 h1 fw2 h2 hne s hs1 hs2
    obtain ⟨cat1, _, rfl⟩ := List.mem_map.mp hs1
    obtain ⟨cat2, _, heq⟩ := List.mem_map.mp hs2
    have h3 := sapp_left_cancel heq
    have h4 := congrArg String.data h3
    simp only [data_seg] at h4
    exact hne (str_ext (sep_inj (frameworks_id_clean fw2 h2)
      (frameworks_id_clean fw1 h1) h4).1).symm

theorem snippetSufs_nodup (env : ContentEnv)
    (hN : ∀ fw ∈ loadAllFrameworks,
      ((categoriesOf env fw.id).map Category.id).Nodup)
    (hC : ∀ fw ∈ loadAllFrameworks, ∀ cat ∈ categoriesOf env fw.id,
      '/' ∉ cat.id.data)
    (hS : ∀ fw ∈ loadAllFrameworks, ∀ cat ∈ categoriesOf env fw.id,
      (cat.snippets.map Snippet.id).Nodup) :
    (snippetSufs env).Nodup := by
  unfold snippetSufs
  rw [List.nodup_flatMap]
  constructor
  · intro fw hfw
    rw [List.nodup_flatMap]
    constructor
    · intro cat hcat
      have he : cat.snippets.map (fun s =>
          "snippet" ++ "/" ++ (fw.id ++ "/" ++ (cat.id ++ "/" ++ (s.id ++ ".html")))) =
          (cat.snippets.map Snippet.id).map (fun sid =>
            "snippet" ++ "/" ++ (fw.id ++ "/" ++ (cat.id ++ "/" ++ (sid ++ ".html")))) := by
        rw [List.map_map]
        rfl
      rw [he]
      refine List.Nodup.map ?_ (hS fw hfw cat hcat)
      intro x y h
      exact sapp_right_cancel
        (sapp_left_cancel (sapp_left_cancel (sapp_left_cancel h)))
    · refine pairwise_disjoint_of_key (categoriesOf env fw.id) Category.id _
        (hN fw hfw) ?_
      intro cat1 h1 cat2 h2 hne s hs1 hs2
      obtain ⟨s1, _, rfl⟩ := List.mem_map.mp hs1
      obtain ⟨s2, _, heq⟩ := List.mem_map.mp hs2
      have h3 := sapp_left_cancel (sapp_left_cancel heq)
      have h4 := congrArg String.data h3
      simp only [data_seg] at h4
      exact hne (str_ext (sep_inj (hC fw hfw cat2 h2) (hC fw hfw cat1 h1) h4).1).symm
  · refine pairwise_disjoint_of_key loadAllFrameworks Framework.id _
      frameworks_ids_nodup ?_
    intro fw1 h1 fw2 h2 hne s hs1 hs2
    obtain ⟨cat1, _, hmem1⟩ := List.mem_flatMap.mp hs1
    obtain ⟨s1, _, rfl⟩ := List.mem_map.mp hmem1
    obtain ⟨cat2, _, hmem2⟩ := List.mem_flatMap.mp hs2
    obtain ⟨s2, _, heq⟩ := List.mem_map.mp hmem2
    have h3 := sapp_left_cancel heq
    have h4 := congrArg String.data h3
    simp only [data_seg] at h4
    exact hne (str_ext (sep_inj (frameworks_id_clean fw2 h2)
      (frameworks_id_clean fw1 h1) h4).1).symm

theorem useCaseSufs_nodup (env : ContentEnv) : (useCaseSufs env).Nodup := by
  have hsub : (useCaseSufs env).Sublist (COMMON_USE_CASES.flatMap (fun uc =>
      loadAllFrameworks.map (fun fw =>
        "use-case" ++ "/" ++ (fw.id ++ "/" ++ (slugify uc ++ ".html"))))) := by
    apply flatMap_sublist
    intro uc
    exact (List.filter_sublist _).map _
  refine List.Nodup.sublist hsub ?_
  rw [List.nodup_flatMap]
  constructor
  · intro uc _
    refine nodup_map_of_key loadAllFrameworks Framework.id _
      frameworks_ids_nodup ?_
    intro fw1 h1 fw2 h2 hne heq
    have h3 := sapp_left_cancel heq
    have h4 := congrArg String.data h3
    simp only [data_seg] at h4
    exact hne (str_ext (sep_inj (frameworks_id_clean fw1 h1)
      (frameworks_id_clean fw2 h2) h4).1)
  · refine pairwise_disjoint_of_key COMMON_USE_CASES slugify _ ucSlugs_nodup ?_
    intro uc1 _ uc2 _ hne s hs1 hs2
    obtain ⟨fw1, hm1, rfl⟩ := List.mem_map.mp hs1
    obtain ⟨fw2, hm2, heq⟩ := List.mem_map.mp hs2
    have h3 := sapp_left_cancel heq
    have h4 := congrArg String.data h3
    simp only [data_seg] at h4
    have h5 := (sep_inj (frameworks_id_clean fw2 hm2)
      (frameworks_id_clean fw1 hm1) h4).2
    have h6 : slugify uc2 ++ ".html" = slugify uc1 ++ ".html" := by
      apply str_ext
      rw [data_append, data_append]
      exact h5
    exact hne (sapp_right_cancel h6).symm

set_option maxRecDepth 10000 in
theorem comparisonSufs_nodup : comparisonSufs.Nodup := by decide

theorem guideSufs_eq_map : guideSufs =
    (loadAllFrameworks.flatMap (fun fw =>
      TUTORIAL_TOPICS.map (fun t => slugify (fw.id ++ "-" ++ t.id)))).map
      (fun slug => "guide" ++ "/" ++ (slug ++ ".html")) := by
  unfold guideSufs
  rw [List.map_flatMap]
  simp only [List.map_map]
  rfl

theorem guideSufs_nodup : guideSufs.Nodup := by
  rw [guideSufs_eq_map]
  exact List.Nodup.map (wrap_injective ("guide" ++ "/") ".html") guideSlugs_nodup

theorem tagSufs_nodup : tagSufs.Nodup := by
  unfold tagSufs
  rw [List.nodup_flatMap]
  constructor
  · intro fw hfw
    have he : TAGS.map (fun tag =>
        "tag" ++ "/" ++ (fw.id ++ "/" ++ (slugify tag ++ ".html"))) =
        (TAGS.map slugify).map (fun slug =>
          "tag" ++ "/" ++ (fw.id ++ "/" ++ (slug ++ ".html"))) := by
      rw [List.map_map]
      rfl
    rw [he]
    refine List.Nodup.map ?_ tagSlugs_nodup
    intro x y h
    exact sapp_right_cancel (sapp_left_cancel (sapp_left_cancel h))
  · refine pairwise_disjoint_of_key loadAllFrameworks Framework.id _
      frameworks_ids_nodup ?_
    intro fw1 h1 fw2 h2 hne s hs1 hs2
    obtain ⟨t1, _, rfl⟩ := List.mem_map.mp hs1
    obtain ⟨t2, _, heq⟩ := List.mem_map.mp hs2
    have h3 := sapp_left_cancel heq
    have h4 := congrArg String.data h3
    simp only [data_seg] at h4
    exact hne (str_ext (sep_inj (frameworks_id_clean fw2 h2)
      (frameworks_id_clean fw1 h1) h4).1).symm

theorem searchSufs_eq_map : searchSufs =
    (SEARCH_QUERIES.map slugify).map
      (fun slug => "search" ++ "/" ++ (slug ++ ".html")) := by
  unfold searchSufs
  rw [List.map_map]
  rfl

theorem searchSufs_nodup : searchSufs.Nodup := by
  rw [searchSufs_eq_map]
  exact List.Nodup.map (wrap_injective ("search" ++ "/") ".html") sqSlugs_nodup

theorem patternSufs_eq_map : patternSufs =
    (loadAllFrameworks.flatMap (fun fw =>
      PATTERNS.map (fun pat => slugify (fw.id ++ "-" ++ pat.id)))).map
      (fun slug => "pattern" ++ "/" ++ (slug ++ ".html")) := by
  unfold patternSufs
  rw [List.map_flatMap]
  simp only [List.map_map]
  rfl

theorem patternSufs_nodup : patternSufs.Nodup := by
  rw [patternSufs_eq_map]
  exact List.Nodup.map (wrap_injective ("pattern" ++ "/") ".html")
    patternSlugs_nodup

/-! ## Cross-generator disjointness and the build-wide uniqueness -/

theorem fwSufs_disj_catSufs (env : ContentEnv) :
    frameworkSufs.Disjoint (categorySufs env) := by
  intro s hs1 hs2
  obtain ⟨fw, hfw, rfl⟩ := List.mem_map.mp hs1
  obtain ⟨fw2, _, hmem⟩ := List.mem_flatMap.mp hs2
  obtain ⟨cat, _, heq⟩ := List.mem_map.mp hmem
  have h3 := sapp_left_cancel heq
  have h4 := congrArg String.data h3
  simp only [data_seg] at h4
  have hin : '/' ∈ (fw.id ++ ".html").data := by
    rw [← h4]
    simp
  exact frameworks_idhtml_clean fw hfw hin

theorem allSufs_nodup (env : ContentEnv)
    (hN : ∀ fw ∈ loadAllFrameworks,
      ((categoriesOf env fw.id).map Category.id).Nodup)
    (hC : ∀ fw ∈ loadAllFrameworks, ∀ cat ∈ categoriesOf env fw.id,
      '/' ∉ cat.id.data)
    (hS : ∀ fw ∈ loadAllFrameworks, ∀ cat ∈ categoriesOf env fw.id,
      (cat.snippets.map Snippet.id).Nodup) :
    (allSufs env).Nodup := by
  have w1 := shape_weak frameworkSufs_shape
  have w2 := shape_weak (categorySufs_shape env)
  have w3 := shape_weak (snippetSufs_shape env)
  have w4 := shape_weak (useCaseSufs_shape env)
  have w5 := shape_weak comparisonSufs_shape
  have w6 := shape_weak guideSufs_shape
  have w7 := shape_weak tagSufs_shape
  have w8 := shape_weak searchSufs_shape
  have w9 := shape_weak patternSufs_shape
  unfold allSufs
  refine List.nodup_append.mpr ⟨frameworkSufs_nodup, ?_, ?_⟩
  · refine List.nodup_append.mpr ⟨categorySufs_nodup env hN, ?_, ?_⟩
    · refine List.nodup_append.mpr ⟨snippetSufs_nodup env hN hC hS, ?_, ?_⟩
      · refine List.nodup_append.mpr ⟨useCaseSufs_nodup env, ?_, ?_⟩
        · refine List.nodup_append.mpr ⟨comparisonSufs_nodup, ?_, ?_⟩
          · refine List.nodup_append.mpr ⟨guideSufs_nodup, ?_, ?_⟩
            · refine List.nodup_append.mpr ⟨tagSufs_nodup, ?_, ?_⟩
              · exact List.nodup_append.mpr ⟨searchSufs_nodup, patternSufs_nodup,
                  disjoint_of_shapes w8 w9 (by decide)⟩
              · simp only [List.disjoint_append_right]
                exact ⟨disjoint_of_shapes w7 w8 (by decide),
                  disjoint_of_shapes w7 w9 (by decide)⟩
            · simp only [List.disjoint_append_right]
              exact ⟨disjoint_of_shapes w6 w7 (by decide),
                disjoint_of_shapes w6 w8 (by decide),
                disjoint_of_shapes w6 w9 (by decide)⟩
          · simp only [List.disjoint_append_right]
            exact ⟨disjoint_of_shapes w5 w6 (by decide),
              disjoint_of_shapes w5 w7 (by decide),
              disjoint_of_shapes w5 w8 (by decide),
              disjoint_of_shapes w5 w9 (by decide)⟩
        · simp only [List.disjoint_append_right]
          exact ⟨disjoint_of_shapes w4 w5 (by decide),
            disjoint_of_shapes w4 w6 (by decide),
            disjoint_of_shapes w4 w7 (by decide),
            disjoint_of_shapes w4 w8 (by decide),
            disjoint_of_shapes w4 w9 (by decide)⟩
      · simp only [List.disjoint_append_right]
        exact ⟨disjoint_of_shapes w3 w4 (by decide),
          disjoint_of_shapes w3 w5 (by decide),
          disjoint_of_shapes w3 w6 (by decide),
          disjoint_of_shapes w3 w7 (by decide),
          disjoint_of_shapes w3 w8 (by decide),
          disjoint_of_shapes w3 w9 (by decide)⟩
    · simp only [List.disjoint_append_right]
      exact ⟨disjoint_of_shapes w2 w3 (by decide),
        disjoint_of_shapes w2 w4 (by decide),
        disjoint_of_shapes w2 w5 (by decide),
        disjoint_of_shapes w2 w6 (by decide),
        disjoint_of_shapes w2 w7 (by decide),
        disjoint_of_shapes w2 w8 (by decide),
        disjoint_of_shapes w2 w9 (by decide)⟩
  · simp only [List.disjoint_append_right]
    exact ⟨fwSufs_disj_catSufs env,
      disjoint_of_shapes w1 w3 (by decide),
      disjoint_of_shapes w1 w4 (by decide),
      disjoint_of_shapes w1 w5 (by decide),
      disjoint_of_shapes w1 w6 (by decide),
      disjoint_of_shapes w1 w7 (by decide),
      disjoint_of_shapes w1 w8 (by decide),
      disjoint_of_shapes w1 w9 (by decide)⟩

/-- **C6 (amended)** — provided the loaded content is well formed (per
framework, the category ids are distinct and contain no "/"; per category,
the snippet ids are distinct), no two pages of the whole build share a path;
the sitemap always has exactly one `<url>` entry per generated page, and its
`<loc>` values are then pairwise distinct as well.  Nothing in the code
enforces the content conditions, and without them paths can collide (see the
counterexample).  (`index.ts`, `build`/`generateSitemap`; all nine
generators.) -/
theorem build_unique_paths (outDir : String) (env : ContentEnv)
    (buildDate : String)
    (hN : ∀ fw ∈ loadAllFrameworks,
      ((categoriesOf env fw.id).map Category.id).Nodup)
    (hC : ∀ fw ∈ loadAllFrameworks, ∀ cat ∈ categoriesOf env fw.id,
      '/' ∉ cat.id.data)
    (hS : ∀ fw ∈ loadAllFrameworks, ∀ cat ∈ categoriesOf env fw.id,
      (cat.snippets.map Snippet.id).Nodup) :
    ((allPages outDir env).map GeneratedPage.path).Nodup ∧
      (sitemapEntries buildDate (allPages outDir env)).length =
        (allPages outDir env).length ∧
      ((sitemapEntries buildDate (allPages outDir env)).map
        SitemapEntry.url).Nodup := by
  have hpaths : ((allPages outDir env).map GeneratedPage.path).Nodup := by
    rw [map_path_allPages]
    exact (allSufs_nodup env hN hC hS).map (append_left_injective (outDir ++ "/"))
  refine ⟨hpaths, ?_, ?_⟩
  · simp [sitemapEntries]
  · have he : (sitemapEntries buildDate (allPages outDir env)).map
        SitemapEntry.url =
        ((allPages outDir env).map GeneratedPage.path).map
          (fun p => SITE_URL ++ p) := by
      simp only [sitemapEntries, List.map_map]
      rfl
    rw [he]
    exact hpaths.map (append_left_injective SITE_URL)

/-- A category document carrying the same id regardless of the file it was
requested as. -/
def dupRaw : CategoryRaw :=
  { id := "dup", title := "Dup", description := "", subcategories := none }

/-- An index listing two category files that both parse to `dupRaw`. -/
def dupIndex : FrameworkContent :=
  { framework := "express", version := "5", title := "", description := "",
    installNote := "",
    categoryFiles := [⟨"a", "a.json", "", ""⟩, ⟨"b", "b.json", "", ""⟩] }

/-- A content environment on which two generated pages collide: both category
files of `express` parse to a category with id `dup`. -/
def dupEnv : ContentEnv :=
  { frameworkIndex := fun fwId => if fwId = "express" then some dupIndex else none,
    categoryFile := fun fwId _ => if fwId = "express" then some dupRaw else none }

/-- **C6 counterexample** — the claim as stated (paths are unique across
every build) fails: the build does not enforce uniqueness of loaded category
ids, and on `dupEnv` the category generator emits two pages with the same
path `framework/express/dup.html`, so the sitemap has duplicate `<loc>`
values too. -/
theorem build_unique_paths_counterexample :
    ¬ ((allPages "" dupEnv).map GeneratedPage.path).Nodup := by
  intro h
  have hsub : ((generateCategoryPages "" dupEnv).map GeneratedPage.path).Sublist
      ((allPages "" dupEnv).map GeneratedPage.path) := by
    unfold allPages
    simp only [List.map_append]
    exact (((((((List.sublist_append_right _ _).trans
      (List.sublist_append_left _ _)).trans
        (List.sublist_append_left _ _)).trans
          (List.sublist_append_left _ _)).trans
            (List.sublist_append_left _ _)).trans
              (List.sublist_append_left _ _)).trans
                (List.sublist_append_left _ _)).trans
                  (List.sublist_append_left _ _)
  have h2 := h.sublist hsub
  have he : (generateCategoryPages "" dupEnv).map GeneratedPage.path =
      ["/framework/express/dup.html", "/framework/express/dup.html"] := by decide
  rw [he] at h2
  simp at h2

/-! ## C10: the sitemap's root branch is unreachable -/

theorem leadMatch_append_of : ∀ (n x : List Char), leadMatch n x = true →
    ∀ y, leadMatch n (x ++ y) = true := by
  intro n
  induction n with
  | nil => intro x _ y; rfl
  | cons a as ih =>
    intro x h y
    cases x with
    | nil => simp [leadMatch] at h
    | cons b bs =>
      simp only [leadMatch, Bool.and_eq_true] at h
      simp only [List.cons_append, leadMatch, Bool.and_eq_true]
      exact ⟨h.1, ih bs h.2 y⟩

theorem sEndsWith_append_left (a b t : String)
    (h : sEndsWith b t = true) : sEndsWith (a ++ b) t = true := by
  unfold sEndsWith at h ⊢
  rw [data_append, List.reverse_append]
  exact leadMatch_append_of _ _ h _

theorem sEndsWith_html_of_shape {s P r : String}
    (h : s = P ++ (r ++ ".html")) : sEndsWith s ".html" = true := by
  subst h
  rw [← String.append_assoc]
  exact sEndsWith_append _ _

theorem ne_root_of_endsWith_html {s : String}
    (h : sEndsWith s ".html" = true) : s ≠ "/" := by
  intro he
  rw [he] at h
  exact absurd h (by decide)

theorem allSufs_endsWith_html (env : ContentEnv) :
    ∀ s ∈ allSufs env, sEndsWith s ".html" = true := by
  intro s hs
  unfold allSufs at hs
  simp only [List.mem_append] at hs
  rcases hs with h | h | h | h | h | h | h | h | h
  · obtain ⟨r, hr⟩ := frameworkSufs_shape s h
    exact sEndsWith_html_of_shape hr
  · obtain ⟨r, hr⟩ := categorySufs_shape env s h
    exact sEndsWith_html_of_shape hr
  · obtain ⟨r, hr⟩ := snippetSufs_shape env s h
    exact sEndsWith_html_of_shape hr
  · obtain ⟨r, hr⟩ := useCaseSufs_shape env s h
    exact sEndsWith_html_of_shape hr
  · obtain ⟨r, hr⟩ := comparisonSufs_shape s h
    exact sEndsWith_html_of_shape hr
  · obtain ⟨r, hr⟩ := guideSufs_shape s h
    exact sEndsWith_html_of_shape hr
  · obtain ⟨r, hr⟩ := tagSufs_shape s h
    exact sEndsWith_html_of_shape hr
  · obtain ⟨r, hr⟩ := searchSufs_shape s h
    exact sEndsWith_html_of_shape hr
  · obtain ⟨r, hr⟩ := patternSufs_shape s h
    exact sEndsWith_html_of_shape hr

/-- **C10** — every page emitted by the nine generators has a path built by
`join(OUTPUT_DIR, ...)`: the output root followed by a relative part ending
in ".html", so no page path ever equals "/", the priority-1.0 root branch of
`generateSitemap` is unreachable — every sitemap entry gets priority 0.8 —
and every `<loc>` is `SITE_URL` concatenated with the page's filesystem
path.  (`index.ts`, `generateSitemap`; path construction of all nine
generators.) -/
theorem sitemap_root_branch_unreachable (outDir : String) (env : ContentEnv)
    (buildDate : String) :
    (∀ p ∈ allPages outDir env,
      (∃ rest, p.path = outDir ++ "/" ++ rest ∧ sEndsWith rest ".html" = true) ∧
        sEndsWith p.path ".html" = true ∧ p.path ≠ "/") ∧
      sitemapEntries buildDate (allPages outDir env) =
        (allPages outDir env).map (fun p =>
          { url := SITE_URL ++ p.path, lastmod := buildDate,
            changefreq := "weekly", priority := 4/5 }) := by
  have hmain : ∀ p ∈ allPages outDir env,
      (∃ rest, p.path = outDir ++ "/" ++ rest ∧ sEndsWith rest ".html" = true) ∧
        sEndsWith p.path ".html" = true ∧ p.path ≠ "/" := by
    intro p hp
    have hmem : p.path ∈ (allPages outDir env).map GeneratedPage.path :=
      List.mem_map_of_mem _ hp
    rw [map_path_allPages] at hmem
    obtain ⟨s, hs, heq⟩ := List.mem_map.mp hmem
    have hend := allSufs_endsWith_html env s hs
    have hpend : sEndsWith p.path ".html" = true := by
      rw [← heq]
      exact sEndsWith_append_left (outDir ++ "/") s ".html" hend
    exact ⟨⟨s, heq.symm, hend⟩, hpend, ne_root_of_endsWith_html hpend⟩
  refine ⟨hmain, ?_⟩
  unfold sitemapEntries
  apply List.map_congr_left
  intro p hp
  have hne := (hmain p hp).2.2
  simp [hne]

/-- The first framework record. -/
def fwExpress : Framework :=
  ⟨"express", "Express.js",
    "The battle-tested standard. Middleware and controllers compatible with Express 4 and 5."⟩

/-- Witness for `sitemap_root_branch_unreachable`: the express framework page
of a concrete build has a path under the output root ending in ".html" and
different from "/". -/
theorem sitemap_root_branch_unreachable_witness :
    (∃ rest, (frameworkPage "/out" fwExpress).path = "/out" ++ "/" ++ rest ∧
        sEndsWith rest ".html" = true) ∧
      sEndsWith (frameworkPage "/out" fwExpress).path ".html" = true ∧
      (frameworkPage "/out" fwExpress).path ≠ "/" :=
  (sitemap_root_branch_unreachable "/out" demoEnv "2026-02-03").1
    (frameworkPage "/out" fwExpress)
    (List.mem_append_left _ (List.mem_append_left _ (List.mem_append_left _
      (List.mem_append_left _ (List.mem_append_left _ (List.mem_append_left _
        (List.mem_append_left _ (List.mem_append_left _
          (List.mem_map_of_mem _ (by decide))))))))))

/-! ## C1: canonical URL versus emitted path -/

/-- **C1 counterexample** — the comparison page for the pair
(express, hono) is emitted under `compare/express-js-vs-hono.html`, but its
canonical is `<origin>/framework/express-js-vs-hono`: the canonical does not
end with the page\x27s logical path `/compare/express-js-vs-hono`.
(`generateComparisonPage` passes the comparison slug as the `framework`
context field, so the `framework` canonical template is used.) -/
theorem canonical_counterexample :
    ((comparisonPage "" "express" "hono" loadAllFrameworks).map
        (fun p => (p.path, p.metadata.canonical))) =
      some ("/compare/express-js-vs-hono.html",
        SITE_URL ++ "/framework/express-js-vs-hono") ∧
      sEndsWith (SITE_URL ++ "/framework/express-js-vs-hono")
        "/compare/express-js-vs-hono" = false := by
  constructor
  · decide
  · decide

/-- **C1 (amended)** — canonical/path agreement holds generator by
generator, with three exceptions.  For every framework, category, snippet,
tutorial, search and pattern page there is a relative slug `rel` with
`path = outDir/rel.html` and `canonical = SITE_URL/rel`, exactly as the
claim states.  But (a) comparison pages are emitted under
`compare/<slug>.html` while their canonical is `SITE_URL/framework/<slug>`,
and (b) tag and use-case pages are emitted under
`tag/<frameworkId>/<slug>.html` and `use-case/<frameworkId>/<slug>.html`
while their canonicals drop the framework segment: `SITE_URL/tag/<slug>`
and `SITE_URL/use-case/<slug>`.  (`utils/seo-metadata.ts`
`generateMetadata`; `generateComparisonPage`, `generateTagPages`,
`generateUseCasePages`.) -/
theorem canonical_per_generator (outDir : String) (env : ContentEnv) :
    (∀ p ∈ generateFrameworkPages outDir env ++ generateCategoryPages outDir env ++
        generateSnippetPages outDir env ++ generateTutorialPages outDir env ++
        generateSearchPages outDir env ++ generatePatternPages outDir env,
      ∃ rel, p.path = outDir ++ "/" ++ (rel ++ ".html") ∧
        p.metadata.canonical = SITE_URL ++ "/" ++ rel) ∧
    (∀ p ∈ generateComparisonPages outDir env, ∃ slug,
      p.path = outDir ++ "/" ++ ("compare" ++ "/" ++ (slug ++ ".html")) ∧
      p.metadata.canonical = SITE_URL ++ "/framework/" ++ slug) ∧
    (∀ p ∈ generateTagPages outDir env, ∃ fwId slug,
      p.path = outDir ++ "/" ++ ("tag" ++ "/" ++ (fwId ++ "/" ++ (slug ++ ".html"))) ∧
      p.metadata.canonical = SITE_URL ++ "/tag/" ++ slug) ∧
    (∀ p ∈ generateUseCasePages outDir env, ∃ fwId slug,
      p.path = outDir ++ "/" ++
          ("use-case" ++ "/" ++ (fwId ++ "/" ++ (slug ++ ".html"))) ∧
      p.metadata.canonical = SITE_URL ++ "/use-case/" ++ slug) := by
  refine ⟨?_, ?_, ?_, ?_⟩
  · intro p hp
    simp only [List.mem_append] at hp
    rcases hp with ((((h | h) | h) | h) | h) | h
    · obtain ⟨fw, _, rfl⟩ := List.mem_map.mp h
      refine ⟨"framework" ++ "/" ++ fw.id, ?_, ?_⟩
      · show outDir ++ "/" ++ ("framework" ++ "/" ++ (fw.id ++ ".html")) = _
        simp only [String.append_assoc]
      · show SITE_URL ++ "/framework/" ++ fw.id = _
        rw [(by decide : (SITE_URL ++ "/framework/" : String) =
          (SITE_URL ++ "/") ++ ("framework" ++ "/"))]
        simp only [String.append_assoc]
    · obtain ⟨fw, _, hin⟩ := List.mem_flatMap.mp h
      obtain ⟨cat, _, rfl⟩ := List.mem_map.mp hin
      refine ⟨"framework" ++ "/" ++ (fw.id ++ "/" ++ cat.id), ?_, ?_⟩
      · show outDir ++ "/" ++
          ("framework" ++ "/" ++ (fw.id ++ "/" ++ (cat.id ++ ".html"))) = _
        simp only [String.append_assoc]
      · show SITE_URL ++ "/framework/" ++ fw.id ++ "/" ++ cat.id = _
        rw [(by decide : (SITE_URL ++ "/framework/" : String) =
          (SITE_URL ++ "/") ++ ("framework" ++ "/"))]
        simp only [String.append_assoc]
    · obtain ⟨fw, _, hin⟩ := List.mem_flatMap.mp h
      obtain ⟨cat, _, hin2⟩ := List.mem_flatMap.mp hin
      obtain ⟨s, _, rfl⟩ := List.mem_map.mp hin2
      refine ⟨"snippet" ++ "/" ++ (fw.id ++ "/" ++ (cat.id ++ "/" ++ s.id)), ?_, ?_⟩
      · show outDir ++ "/" ++
          ("snippet" ++ "/" ++ (fw.id ++ "/" ++ (cat.id ++ "/" ++ (s.id ++ ".html")))) = _
        simp only [String.append_assoc]
      · show SITE_URL ++ "/snippet/" ++ fw.id ++ "/" ++ cat.id ++ "/" ++ s.id = _
        rw [(by decide : (SITE_URL ++ "/snippet/" : String) =
          (SITE_URL ++ "/") ++ ("snippet" ++ "/"))]
        simp only [String.append_assoc]
    · obtain ⟨fw, _, hin⟩ := List.mem_flatMap.mp h
      obtain ⟨topic, _, rfl⟩ := List.mem_map.mp hin
      refine ⟨"guide" ++ "/" ++ slugify (fw.id ++ "-" ++ topic.id), ?_, ?_⟩
      · show outDir ++ "/" ++
          ("guide" ++ "/" ++ (slugify (fw.id ++ "-" ++ topic.id) ++ ".html")) = _
        simp only [String.append_assoc]
      · show SITE_URL ++ "/guide/" ++ slugify (fw.id ++ "-" ++ topic.id) = _
        rw [(by decide : (SITE_URL ++ "/guide/" : String) =
          (SITE_URL ++ "/") ++ ("guide" ++ "/"))]
        simp only [String.append_assoc]
    · obtain ⟨q, _, rfl⟩ := List.mem_map.mp h
      refine ⟨"search" ++ "/" ++ slugify q, ?_, ?_⟩
      · show outDir ++ "/" ++ ("search" ++ "/" ++ (slugify q ++ ".html")) = _
        simp only [String.append_assoc]
      · show SITE_URL ++ "/search/" ++ slugify q = _
        rw [(by decide : (SITE_URL ++ "/search/" : String) =
          (SITE_URL ++ "/") ++ ("search" ++ "/"))]
        simp only [String.append_assoc]
    · obtain ⟨fw, _, hin⟩ := List.mem_flatMap.mp h
      obtain ⟨pat, _, rfl⟩ := List.mem_map.mp hin
      refine ⟨"pattern" ++ "/" ++ slugify (fw.id ++ "-" ++ pat.id), ?_, ?_⟩
      · show outDir ++ "/" ++
          ("pattern" ++ "/" ++ (slugify (fw.id ++ "-" ++ pat.id) ++ ".html")) = _
        simp only [String.append_assoc]
      · show SITE_URL ++ "/pattern/" ++ slugify (fw.id ++ "-" ++ pat.id) = _
        rw [(by decide : (SITE_URL ++ "/pattern/" : String) =
          (SITE_URL ++ "/") ++ ("pattern" ++ "/"))]
        simp only [String.append_assoc]
  · intro p hp
    obtain ⟨pr, _, hin⟩ := List.mem_flatMap.mp hp
    unfold comparisonPage at hin
    cases h1 : getFrameworkInfo loadAllFrameworks pr.1 with
    | none => rw [h1] at hin; simp at hin
    | some fw1 =>
      cases h2 : getFrameworkInfo loadAllFrameworks pr.2 with
      | none => rw [h1, h2] at hin; simp at hin
      | some fw2 =>
        rw [h1, h2] at hin
        simp only [Option.toList_some, List.mem_singleton] at hin
        subst hin
        exact ⟨slugify (fw1.name ++ "-vs-" ++ fw2.name), rfl, rfl⟩
  · intro p hp
    obtain ⟨fw, _, hin⟩ := List.mem_flatMap.mp hp
    obtain ⟨tag, _, rfl⟩ := List.mem_map.mp hin
    exact ⟨fw.id, slugify tag, rfl, rfl⟩
  · intro p hp
    obtain ⟨uc, _, hin⟩ := List.mem_flatMap.mp hp
    obtain ⟨fw, _, rfl⟩ := List.mem_map.mp hin
    exact ⟨fw.id, slugify uc, rfl, rfl⟩

/-- Witness for `canonical_per_generator`: the express framework page of a
concrete build has path `/out/framework/express.html` and canonical
`SITE_URL/framework/express`, agreeing on the slug. -/
theorem canonical_per_generator_witness :
    ∃ rel, (frameworkPage "/out" fwExpress).path = "/out" ++ "/" ++ (rel ++ ".html") ∧
      (frameworkPage "/out" fwExpress).metadata.canonical = SITE_URL ++ "/" ++ rel :=
  (canonical_per_generator "/out" demoEnv).1 (frameworkPage "/out" fwExpress)
    (List.mem_append_left _ (List.mem_append_left _ (List.mem_append_left _
      (List.mem_append_left _ (List.mem_append_left _
        (List.mem_map_of_mem _ (by decide)))))))

/-- Witness for `build_unique_paths`: a concrete build over the demo
content environment has pairwise-distinct page paths, one sitemap entry per
page, and pairwise-distinct sitemap urls. -/
theorem build_unique_paths_witness :
    ((allPages "/out" demoEnv).map GeneratedPage.path).Nodup ∧
      (sitemapEntries "2026-02-03" (allPages "/out" demoEnv)).length =
        (allPages "/out" demoEnv).length ∧
      ((sitemapEntries "2026-02-03" (allPages "/out" demoEnv)).map
        SitemapEntry.url).Nodup :=
  build_unique_paths "/out" demoEnv "2026-02-03" (by decide) (by decide)
    (by decide)

end Hanma
